import Mathlib

/-!
Verification development for the AidStation analysis/prediction workers
(`src/workers/python/src`).  The Python code is shallowly embedded in Lean:

* floating point numbers are modelled by exact rationals (`ℚ`);
* Python `round` (banker's rounding, round-half-to-even) is `pyRound`
  and `round(x, n)` is `roundTo n x`;
* `datetime` values are modelled as rational minutes since a day-0
  midnight, so `timedelta(minutes=m)` is addition and `.hour` is
  `⌊t/60⌋ % 24`;
* Python `Optional` values are `Option`, and the truthiness tests of the
  source (`if not x`, `x or d`) are translated by explicit matches that
  treat `none` and `some 0` alike exactly where the source does;
* a Python dict with numeric-range keys ("0-10" … "90-100") is modelled
  by its key-sorted association list (the key is the parsed lower bound),
  which is the exact order `sorted(dict.items())` produces in the source.
-/

/-- Python `round(x)`: round half to even (banker's rounding), exact on ℚ. -/
def pyRound (x : ℚ) : ℤ :=
  let f := Int.floor x
  let r := x - (f : ℚ)
  if r < 1/2 then f
  else if 1/2 < r then f + 1
  else if f % 2 = 0 then f else f + 1

/-- Python `round(x, n)` for `n` decimal digits. -/
def roundTo (n : ℕ) (x : ℚ) : ℚ :=
  (pyRound (x * 10 ^ n) : ℚ) / 10 ^ n

/-- Minetti metabolic-cost polynomial, shared verbatim by
`ActivityPerformanceAnalyzer._calculate_minetti_cost`,
`TerrainSegmentAnalyzer._calculate_minetti_cost` and the body of
`RacePlanPredictor._minetti_cost`. -/
def minettiCost (i : ℚ) : ℚ :=
  155.4 * i ^ 5 - 30.4 * i ^ 4 - 43.3 * i ^ 3 + 46.3 * i ^ 2 + 19.5 * i + 3.6

namespace Predictor

/-- `RacePlanPredictor._minetti_cost`: the polynomial clamped from below by 1. -/
def minettiCostClamped (gradient : ℚ) : ℚ :=
  max 1 (minettiCost gradient)

/-- `CutoffStatus` enum of `race_predictor.py`. -/
inductive CutoffStatus where
  | safe
  | warning
  | danger
  | missed
deriving DecidableEq, Repr

/-- `AidStationInput` dataclass. -/
structure AidStationInput where
  id : String
  name : String
  distance_km : ℚ
  distance_from_prev_km : Option ℚ
  elevation_m : Option ℚ
  elevation_gain_from_prev_m : Option ℚ
  elevation_loss_from_prev_m : Option ℚ
  cutoff_hours_from_start : Option ℚ
deriving DecidableEq, Repr

/-- `PerformanceProfile` dataclass of `race_predictor.py` (the fields the
predictor reads; `gradient_paces` is never used by the predictor and the
unused climbing/descending paces are kept for shape).  The decay dict is
modelled as its key-sorted association list; `[]` models both `None` and
the empty dict, which the source treats alike (`if self.performance.
pace_decay_by_progress_pct:`). -/
structure PerformanceProfile where
  flat_pace_min_km : ℚ
  climbing_pace_min_km : ℚ
  descending_pace_min_km : ℚ
  fatigue_factor : ℚ
  pace_decay_by_progress_pct : List (ℤ × ℚ)
deriving DecidableEq, Repr

/-- `PredictionResult` dataclass. -/
structure PredictionResult where
  aid_station_id : String
  aid_station_name : String
  distance_km : ℚ
  predicted_arrival_minutes : ℤ
  predicted_arrival_time : ℚ
  cutoff_hours_from_start : Option ℚ
  cutoff_time : Option ℚ
  buffer_minutes : Option ℚ
  status : CutoffStatus
  segment_pace_min_km : ℚ
  grade_adjusted_pace_min_km : ℚ
  terrain_factor : ℚ
  fatigue_factor : ℚ
  nighttime_factor : ℚ
  is_nighttime : Bool
deriving DecidableEq, Repr

/-- `RacePlanPredictor._get_segment_distance` (note: the source tests
`is not None`, so an explicit 0.0 is honoured here). -/
def getSegmentDistance (station : AidStationInput) (prev_distance_km : ℚ) : ℚ :=
  match station.distance_from_prev_km with
  | some d => d
  | none => station.distance_km - prev_distance_km

/-- `RacePlanPredictor._calculate_terrain_factor`.  The `or 0` on the
elevation fields maps `None` (and an explicit 0) to 0. -/
def calcTerrainFactor (station : AidStationInput) (segment_distance : ℚ) : ℚ :=
  if segment_distance ≤ 0 then 1
  else
    let elev_gain := station.elevation_gain_from_prev_m.getD 0
    let elev_loss := station.elevation_loss_from_prev_m.getD 0
    let net_elevation := elev_gain - elev_loss
    let gradient := net_elevation / (segment_distance * 1000)
    let gradient := max (-0.5) (min 0.5 gradient)
    let cost := minettiCostClamped gradient
    max 0.5 (min 3 (cost / 3.6))

/-- The interpolation loop inside `_calculate_fatigue_factor`:
`for i, (pct, mult) in enumerate(available_buckets): if pct >
progress_pct and i > 0: …interpolate with available_buckets[i-1]…`,
falling through to the last bucket's value.  `prev` carries
`available_buckets[i-1]`; the first element can never trigger the
interpolation branch (the `i > 0` guard), which is why it is peeled off
by the caller. -/
def interpScan (progress_pct : ℚ) : (ℤ × ℚ) → List (ℤ × ℚ) → ℚ
  | prev, [] => prev.2
  | prev, (pct, mult) :: rest =>
    if progress_pct < (pct : ℚ) then
      let ratio := (progress_pct - (prev.1 : ℚ)) / ((pct : ℚ) - (prev.1 : ℚ))
      prev.2 + ratio * (mult - prev.2)
    else interpScan progress_pct (pct, mult) rest

/-- `RacePlanPredictor._calculate_fatigue_factor`.  The bucket key
`f"{idx*10}-{(idx+1)*10}"` is identified with its lower bound `idx*10`;
`int(progress_pct // 10)` is `⌊p/10⌋`. -/
def calcFatigueFactor (perf : PerformanceProfile) (distance_km total_distance_km : ℚ) : ℚ :=
  if total_distance_km ≤ 0 then 1
  else
    let progress_pct := distance_km / total_distance_km * 100
    match perf.pace_decay_by_progress_pct with
    | [] => 1 + (perf.fatigue_factor - 1) * (distance_km / total_distance_km)
    | first :: rest =>
      let bucketLower : ℤ := 10 * min (Int.floor (progress_pct / 10)) 9
      match (first :: rest).lookup bucketLower with
      | some v => v
      | none => interpScan progress_pct first rest

/-- `RacePlanPredictor._is_nighttime` on minutes-since-midnight-of-day-0. -/
def isNighttime (t : ℚ) : Bool :=
  let hour := (Int.floor (t / 60)) % 24
  decide (hour ≥ 21 ∨ hour < 6)

/-- `RacePlanPredictor._calculate_cutoff_status`.  The source guard is
`if not station.cutoff_hours_from_start:`, which is taken both for a
missing cutoff and for a cutoff of exactly 0 hours (Python falsiness). -/
def calcCutoffStatus (station : AidStationInput) (start_time predicted_arrival : ℚ) :
    Option ℚ × Option ℚ × CutoffStatus :=
  match station.cutoff_hours_from_start with
  | none => (none, none, CutoffStatus.safe)
  | some c =>
    if c = 0 then (none, none, CutoffStatus.safe)
    else
      let cutoff_time := start_time + c * 60
      let buffer_minutes := cutoff_time - predicted_arrival
      let status :=
        if buffer_minutes < 0 then CutoffStatus.missed
        else if buffer_minutes < 15 then CutoffStatus.danger
        else if buffer_minutes < 30 then CutoffStatus.warning
        else CutoffStatus.safe
      (some cutoff_time, some buffer_minutes, status)

/-- One iteration of the loop of `RacePlanPredictor.predict`: returns the
new cumulative minutes and the `PredictionResult` appended for `station`. -/
def predictStep (perf : PerformanceProfile) (nighttime_slowdown : ℚ)
    (start_time total_distance_km base_pace : ℚ)
    (cumulative_minutes prev_distance_km : ℚ) (station : AidStationInput) :
    ℚ × PredictionResult :=
  let segment_distance := getSegmentDistance station prev_distance_km
  let terrain_factor := calcTerrainFactor station segment_distance
  let fatigue_factor := calcFatigueFactor perf station.distance_km total_distance_km
  let arrival_time_so_far := start_time + cumulative_minutes
  let is_nighttime := isNighttime arrival_time_so_far
  let nighttime_factor := if is_nighttime then 1 + nighttime_slowdown else 1
  let segment_pace := base_pace * terrain_factor * fatigue_factor * nighttime_factor
  let grade_adjusted_pace := base_pace * terrain_factor
  let segment_time := segment_distance * segment_pace
  let cum2 := cumulative_minutes + segment_time
  let predicted_arrival := start_time + cum2
  let cbs := calcCutoffStatus station start_time predicted_arrival
  (cum2,
    { aid_station_id := station.id
      aid_station_name := station.name
      distance_km := station.distance_km
      predicted_arrival_minutes := pyRound cum2
      predicted_arrival_time := predicted_arrival
      cutoff_hours_from_start := station.cutoff_hours_from_start
      cutoff_time := cbs.1
      buffer_minutes :=
        match cbs.2.1 with
        | none => none
        | some b => if b = 0 then none else some ((pyRound b : ℤ) : ℚ)
      status := cbs.2.2
      segment_pace_min_km := roundTo 2 segment_pace
      grade_adjusted_pace_min_km := roundTo 2 grade_adjusted_pace
      terrain_factor := roundTo 2 terrain_factor
      fatigue_factor := roundTo 2 fatigue_factor
      nighttime_factor := roundTo 2 nighttime_factor
      is_nighttime := is_nighttime })

/-- The loop of `RacePlanPredictor.predict`, from an intermediate state. -/
def predictFrom (perf : PerformanceProfile) (nighttime_slowdown : ℚ)
    (start_time total_distance_km base_pace : ℚ) :
    ℚ → ℚ → List AidStationInput → List PredictionResult
  | _, _, [] => []
  | cum, prevD, station :: rest =>
    let sr := predictStep perf nighttime_slowdown start_time total_distance_km base_pace
      cum prevD station
    sr.2 :: predictFrom perf nighttime_slowdown start_time total_distance_km base_pace
      sr.1 station.distance_km rest

/-- `RacePlanPredictor.predict`.  `base_pace = base_pace_min_km or
self.performance.flat_pace_min_km` is a Python falsy-or: a missing or zero
override falls back to the profile's flat pace. -/
def predict (perf : PerformanceProfile) (nighttime_slowdown : ℚ)
    (aid_stations : List AidStationInput) (start_time total_distance_km : ℚ)
    (base_pace_min_km : Option ℚ) : List PredictionResult :=
  let base_pace :=
    match base_pace_min_km with
    | some b => if b = 0 then perf.flat_pace_min_km else b
    | none => perf.flat_pace_min_km
  predictFrom perf nighttime_slowdown start_time total_distance_km base_pace
    0 0 aid_stations

end Predictor


/-! ### Shared point model of the analyzers

`ActivityPerformanceAnalyzer._extract_points` and
`TerrainSegmentAnalyzer._extract_points` build the same working list: per
track point a dict with the cumulative haversine distance `distance_m`
(non-decreasing, 0 at the first point), the optional timestamp `time`,
and `elevation_smoothed` (Kalman-smoothed when the series has more than
5 points, the raw elevation otherwise).  The analyzer state
`self._points` is embedded as `List Pt`; the claims' theorems take the
construction invariants (first distance 0, monotone distances) as
hypotheses. -/

structure Pt where
  elevation_smoothed : ℚ
  time : Option ℚ
  distance_m : ℚ
deriving DecidableEq, Repr

def dfltPt : Pt := { elevation_smoothed := 0, time := none, distance_m := 0 }

/-- The update loop of `_kalman_smooth_elevation` (identical in both
analyzers): state `x` (estimate) and `P` (variance), measurement noise
R = 10.0, process noise Q = 0.1. -/
def kalmanPass : ℚ → ℚ → List ℚ → List ℚ
  | _, _, [] => []
  | x, P, e :: rest =>
    let P_pred := P + 0.1
    let K := P_pred / (P_pred + 10)
    let x2 := x + K * (e - x)
    let P2 := (1 - K) * P_pred
    x2 :: kalmanPass x2 P2 rest

/-- `_kalman_smooth_elevation`: series of length < 2 are returned
unchanged, otherwise the first sample seeds the filter with P = 1.0. -/
def kalmanSmoothElevation (elevations : List ℚ) : List ℚ :=
  if elevations.length < 2 then elevations
  else
    match elevations with
    | [] => []
    | e :: rest => e :: kalmanPass e 1 rest

/-- The smoothing decision of `_extract_points`: the filter is applied
only when the series has more than 5 points, otherwise the raw elevation
is copied unchanged. -/
def smoothedElevations (elevations : List ℚ) : List ℚ :=
  if 5 < elevations.length then kalmanSmoothElevation elevations else elevations

namespace PerfAnalyzer

/-- `GradientCategory` enum of `performance_analyzer.py`. -/
inductive GradientCategory where
  | steep_downhill
  | downhill
  | gentle_downhill
  | flat
  | gentle_uphill
  | uphill
  | steep_uphill
deriving DecidableEq, Repr

/-- `ActivityPerformanceAnalyzer._categorize_gradient`. -/
def categorizeGradient (gradient_percent : ℚ) : GradientCategory :=
  if gradient_percent < -8 then GradientCategory.steep_downhill
  else if gradient_percent < -3 then GradientCategory.downhill
  else if gradient_percent < -1 then GradientCategory.gentle_downhill
  else if gradient_percent < 1 then GradientCategory.flat
  else if gradient_percent < 3 then GradientCategory.gentle_uphill
  else if gradient_percent < 8 then GradientCategory.uphill
  else GradientCategory.steep_uphill

/-- `SegmentMetrics` dataclass (the fixed-length analyzer's segment). -/
structure SegmentMetrics where
  start_distance_km : ℚ
  end_distance_km : ℚ
  distance_km : ℚ
  elevation_change_m : ℚ
  gradient_percent : ℚ
  time_seconds : ℚ
  actual_pace_min_km : ℚ
  grade_adjusted_pace_min_km : ℚ
  gradient_category : GradientCategory
deriving DecidableEq, Repr

/-- Segment distance (km) between point indices, as computed in
`_analyze_segments`. -/
def segDistKm (pts : List Pt) (s i : ℕ) : ℚ :=
  ((pts.getD i dfltPt).distance_m - (pts.getD s dfltPt).distance_m) / 1000

/-- Segment elapsed time: requires timestamps on both endpoints,
otherwise 0 (`if start_point["time"] and end_point["time"]`). -/
def segTimeSeconds (pts : List Pt) (s i : ℕ) : ℚ :=
  match (pts.getD s dfltPt).time, (pts.getD i dfltPt).time with
  | some t1, some t2 => t2 - t1
  | _, _ => 0

/-- The metric record appended for a kept segment in
`_analyze_segments` (gradient, paces, GAP via the Minetti ratio, all
rounded exactly as the source rounds). -/
def mkSegmentMetrics (pts : List Pt) (s i : ℕ) : SegmentMetrics :=
  let start_point := pts.getD s dfltPt
  let end_point := pts.getD i dfltPt
  let distance_km := (end_point.distance_m - start_point.distance_m) / 1000
  let elevation_change := end_point.elevation_smoothed - start_point.elevation_smoothed
  let time_seconds := segTimeSeconds pts s i
  let gradient := elevation_change / (distance_km * 1000)
  let gradient_percent := gradient * 100
  let actual_pace := (time_seconds / 60) / distance_km
  let cost_ratio := minettiCost gradient / 3.6
  let gap := if cost_ratio > 0 then actual_pace / cost_ratio else actual_pace
  { start_distance_km := roundTo 2 (start_point.distance_m / 1000)
    end_distance_km := roundTo 2 (end_point.distance_m / 1000)
    distance_km := roundTo 2 distance_km
    elevation_change_m := roundTo 1 elevation_change
    gradient_percent := roundTo 1 gradient_percent
    time_seconds := roundTo 0 time_seconds
    actual_pace_min_km := roundTo 2 actual_pace
    grade_adjusted_pace_min_km := roundTo 2 gap
    gradient_category := categorizeGradient gradient_percent }

/-- The loop of `_analyze_segments` over point index `i` with current
segment start `cs`; `fuel` is a structural bound on the remaining
iterations (the caller passes `pts.length`, which always suffices since
`i` starts at 1 and increases every step). -/
def segLoopF (pts : List Pt) : ℕ → ℕ → ℕ → List SegmentMetrics
  | 0, _, _ => []
  | fuel + 1, i, cs =>
    if i < pts.length then
      let distance_in_segment :=
        (pts.getD i dfltPt).distance_m - (pts.getD cs dfltPt).distance_m
      if 1000 ≤ distance_in_segment ∨ i = pts.length - 1 then
        if segTimeSeconds pts cs i ≤ 0 ∨ segDistKm pts cs i ≤ 0 then
          segLoopF pts fuel (i + 1) i
        else
          mkSegmentMetrics pts cs i :: segLoopF pts fuel (i + 1) i
      else segLoopF pts fuel (i + 1) cs
    else []

/-- `ActivityPerformanceAnalyzer._analyze_segments`: fewer than
MIN_POINTS = 10 points produce no segments. -/
def analyzeSegments (pts : List Pt) : List SegmentMetrics :=
  if pts.length < 10 then [] else segLoopF pts pts.length 1 0

/-- The same loop, recording every *closed* segment boundary pair
(kept or dropped). -/
def closedLoopF (pts : List Pt) : ℕ → ℕ → ℕ → List (ℕ × ℕ)
  | 0, _, _ => []
  | fuel + 1, i, cs =>
    if i < pts.length then
      let distance_in_segment :=
        (pts.getD i dfltPt).distance_m - (pts.getD cs dfltPt).distance_m
      if 1000 ≤ distance_in_segment ∨ i = pts.length - 1 then
        (cs, i) :: closedLoopF pts fuel (i + 1) i
      else closedLoopF pts fuel (i + 1) cs
    else []

/-- All segment boundaries closed by `_analyze_segments`. -/
def closedSegments (pts : List Pt) : List (ℕ × ℕ) :=
  if pts.length < 10 then [] else closedLoopF pts pts.length 1 0

/-- The keep test of `_analyze_segments`: a closed segment survives iff
its distance and its elapsed time are both positive. -/
def keepSeg (pts : List Pt) (p : ℕ × ℕ) : Bool :=
  decide (0 < segTimeSeconds pts p.1 p.2 ∧ 0 < segDistKm pts p.1 p.2)

/-- `NormalizedPaceProfile` (the fields the aggregator reads). -/
structure NormalizedPaceProfile where
  pace_by_progress_pct : List (ℤ × ℚ)
  gap_by_progress_pct : List (ℤ × ℚ)
  baseline_pace_min_km : ℚ
  baseline_gap_min_km : ℚ
  activity_distance_km : ℚ

/-- `ActivityAnalysisResult` (the fields `aggregate_performance_profiles`
reads; `pace_by_gradient` is the 7-key dict modelled as a function to an
optional pace). -/
structure ActivityAnalysisResult where
  activity_id : String
  total_distance_km : ℚ
  grade_adjusted_pace_min_km : ℚ
  pace_by_gradient : GradientCategory → Option ℚ
  fatigue_factor : ℚ
  normalized_pace_profile : Option NormalizedPaceProfile

/-- `PerformanceProfile` dataclass of `performance_analyzer.py` (the
aggregated profile). -/
structure PerformanceProfile where
  flat_pace_min_km : ℚ
  gentle_uphill_pace_min_km : ℚ
  uphill_pace_min_km : ℚ
  steep_uphill_pace_min_km : ℚ
  gentle_downhill_pace_min_km : ℚ
  downhill_pace_min_km : ℚ
  steep_downhill_pace_min_km : ℚ
  overall_gap_min_km : ℚ
  fatigue_factor : ℚ
  pace_decay_by_progress_pct : List (ℤ × ℚ)
  activities_analyzed : ℕ
  total_distance_km : ℚ
  gradient_sample_sizes : GradientCategory → ℕ

/-- `weighted_average` of `aggregate_performance_profiles`. -/
def weightedAverage (values_weights : List (ℚ × ℚ)) : Option ℚ :=
  if values_weights = [] then none
  else
    let total_w := (values_weights.map Prod.snd).sum
    if total_w = 0 then none
    else some ((values_weights.map fun p => p.1 * p.2).sum / total_w)

/-- `round(x, 2) if x else 0.0` applied to an optional weighted average
(Python falsy-or: `None` and 0.0 both give 0.0). -/
def roundOrZero (o : Option ℚ) : ℚ :=
  match o with
  | none => 0
  | some v => if v = 0 then 0 else roundTo 2 v

/-- `aggregate_performance_profiles`.  An empty activity list raises
(`none` here); default weights are uniform; weights are normalized by
their sum; the progress-decay aggregation weights each activity by
`weight × total_distance_km`; absent gradient buckets are skipped. -/
def aggregatePerformanceProfiles (analyses : List ActivityAnalysisResult)
    (recency_weights : Option (List ℚ)) : Option PerformanceProfile :=
  if analyses.isEmpty then none
  else
    let rw := match recency_weights with
      | none => analyses.map fun _ => (1 : ℚ)
      | some w => w
    let total_weight := rw.sum
    let weights := rw.map fun w => w / total_weight
    let pairs := analyses.zip weights
    let gradientPaces : GradientCategory → List (ℚ × ℚ) := fun cat =>
      pairs.filterMap fun aw =>
        match aw.1.pace_by_gradient cat with
        | some pace => some (pace, aw.2)
        | none => none
    let all_gaps := pairs.map fun aw => (aw.1.grade_adjusted_pace_min_km, aw.2)
    let all_fatigues := pairs.map fun aw => (aw.1.fatigue_factor, aw.2)
    let total_distance := (analyses.map fun a => a.total_distance_km).sum
    let paceDecay : ℤ → List (ℚ × ℚ) := fun key =>
      pairs.filterMap fun aw =>
        match aw.1.normalized_pace_profile with
        | none => none
        | some prof =>
          match prof.gap_by_progress_pct.lookup key with
          | some mult => some (mult, aw.2 * aw.1.total_distance_km)
          | none => none
    some
      { flat_pace_min_km := roundOrZero (weightedAverage (gradientPaces GradientCategory.flat))
        gentle_uphill_pace_min_km :=
          roundOrZero (weightedAverage (gradientPaces GradientCategory.gentle_uphill))
        uphill_pace_min_km := roundOrZero (weightedAverage (gradientPaces GradientCategory.uphill))
        steep_uphill_pace_min_km :=
          roundOrZero (weightedAverage (gradientPaces GradientCategory.steep_uphill))
        gentle_downhill_pace_min_km :=
          roundOrZero (weightedAverage (gradientPaces GradientCategory.gentle_downhill))
        downhill_pace_min_km :=
          roundOrZero (weightedAverage (gradientPaces GradientCategory.downhill))
        steep_downhill_pace_min_km :=
          roundOrZero (weightedAverage (gradientPaces GradientCategory.steep_downhill))
        overall_gap_min_km := roundOrZero (weightedAverage all_gaps)
        fatigue_factor := roundOrZero (weightedAverage all_fatigues)
        pace_decay_by_progress_pct :=
          (List.range 10).filterMap fun i =>
            match weightedAverage (paceDecay (10 * (i : ℤ))) with
            | some avg => some ((10 * (i : ℤ)), roundTo 3 avg)
            | none => none
        activities_analyzed := analyses.length
        total_distance_km := roundTo 2 total_distance
        gradient_sample_sizes := fun cat => (gradientPaces cat).length }

/-- Selector for the seven per-gradient pace fields of the aggregated
profile. -/
def gradientPaceField (p : PerformanceProfile) : GradientCategory → ℚ
  | GradientCategory.flat => p.flat_pace_min_km
  | GradientCategory.gentle_uphill => p.gentle_uphill_pace_min_km
  | GradientCategory.uphill => p.uphill_pace_min_km
  | GradientCategory.steep_uphill => p.steep_uphill_pace_min_km
  | GradientCategory.gentle_downhill => p.gentle_downhill_pace_min_km
  | GradientCategory.downhill => p.downhill_pace_min_km
  | GradientCategory.steep_downhill => p.steep_downhill_pace_min_km

end PerfAnalyzer


namespace TerrainAnalyzer

/-- `TerrainType` enum of `terrain_segment_analyzer.py`. -/
inductive TerrainType where
  | climb
  | descent
  | flat
deriving DecidableEq, Repr

/-- `GradeCategory` enum of `terrain_segment_analyzer.py`. -/
inductive GradeCategory where
  | steep_climb
  | moderate_climb
  | gentle_climb
  | flat
  | gentle_descent
  | moderate_descent
  | steep_descent
deriving DecidableEq, Repr

/-- `TerrainSegmentAnalyzer._categorize_grade`. -/
def categorizeGrade (grade_percent : ℚ) : GradeCategory :=
  if grade_percent > 8 then GradeCategory.steep_climb
  else if grade_percent > 5 then GradeCategory.moderate_climb
  else if grade_percent ≥ 3 then GradeCategory.gentle_climb
  else if grade_percent > -3 then GradeCategory.flat
  else if grade_percent > -5 then GradeCategory.gentle_descent
  else if grade_percent > -8 then GradeCategory.moderate_descent
  else GradeCategory.steep_descent

/-- `TerrainSegmentAnalyzer._get_terrain_type`: climb at grade ≥ 3 %,
descent at ≤ −3 %, flat in between. -/
def getTerrainType (grade_percent : ℚ) : TerrainType :=
  if grade_percent ≥ 3 then TerrainType.climb
  else if grade_percent ≤ -3 then TerrainType.descent
  else TerrainType.flat

/-- `TerrainSegmentAnalyzer._calculate_gap`. -/
def calcGap (pace_min_km grade_percent : ℚ) : ℚ :=
  let gradient := grade_percent / 100
  let cost_ratio := minettiCost gradient / 3.6
  if cost_ratio > 0 then pace_min_km / cost_ratio else pace_min_km

/-- The enumerating scan of `_find_point_at_distance`: the index (counted
from `k`) of the first point at or beyond the target distance. -/
def findIdxFrom (target_distance_m : ℚ) : ℕ → List Pt → Option ℕ
  | _, [] => none
  | k, p :: rest =>
    if target_distance_m ≤ p.distance_m then some k
    else findIdxFrom target_distance_m (k + 1) rest

/-- `TerrainSegmentAnalyzer._find_point_at_distance`: the first point at
or beyond the target distance, or the last index as a fallback (`None`
only for an empty point list). -/
def findPointAtDistance (pts : List Pt) (target_distance_m : ℚ) : Option ℕ :=
  match findIdxFrom target_distance_m 0 pts with
  | some i => some i
  | none => if pts.isEmpty then none else some (pts.length - 1)

/-- The intermediate metrics dict built by
`TerrainSegmentAnalyzer._calculate_segment_metrics`; `none` exactly when
`start_idx ≥ end_idx`, `end_idx` is out of range, or the spanned
distance is not positive. -/
structure SegMetrics where
  start_idx : ℕ
  end_idx : ℕ
  start_distance_m : ℚ
  end_distance_m : ℚ
  distance_km : ℚ
  elevation_start_m : ℚ
  elevation_end_m : ℚ
  elevation_change_m : ℚ
  grade_percent : ℚ
  time_seconds : ℚ
  pace_min_km : ℚ
  gap_min_km : ℚ
  terrain_type : TerrainType
  grade_category : GradeCategory
deriving DecidableEq, Repr

/-- `TerrainSegmentAnalyzer._calculate_segment_metrics`. -/
def calcSegmentMetrics (pts : List Pt) (start_idx end_idx : ℕ) : Option SegMetrics :=
  if start_idx ≥ end_idx ∨ end_idx ≥ pts.length then none
  else
    let start_point := pts.getD start_idx dfltPt
    let end_point := pts.getD end_idx dfltPt
    let distance_m := end_point.distance_m - start_point.distance_m
    if distance_m ≤ 0 then none
    else
      let distance_km := distance_m / 1000
      let elevation_change := end_point.elevation_smoothed - start_point.elevation_smoothed
      let grade_percent := elevation_change / distance_m * 100
      let time_seconds :=
        match start_point.time, end_point.time with
        | some t1, some t2 => t2 - t1
        | _, _ => 0
      let pace_min_km :=
        if 0 < time_seconds ∧ 0 < distance_km then (time_seconds / 60) / distance_km else 0
      let gap := calcGap pace_min_km grade_percent
      some
        { start_idx := start_idx
          end_idx := end_idx
          start_distance_m := start_point.distance_m
          end_distance_m := end_point.distance_m
          distance_km := distance_km
          elevation_start_m := start_point.elevation_smoothed
          elevation_end_m := end_point.elevation_smoothed
          elevation_change_m := elevation_change
          grade_percent := grade_percent
          time_seconds := time_seconds
          pace_min_km := pace_min_km
          gap_min_km := gap
          terrain_type := getTerrainType grade_percent
          grade_category := categorizeGrade grade_percent }

/-- A raw segment of `_detect_terrain_changes` (a dict with start/end
point indices and a terrain type). -/
structure RawSeg where
  start_idx : ℕ
  end_idx : ℕ
  terrain_type : TerrainType
deriving DecidableEq, Repr

/-- `self._points[-1]["distance_m"]`. -/
def lastDistanceM (pts : List Pt) : ℚ :=
  (pts.getD (pts.length - 1) dfltPt).distance_m

/-- One iteration of the while loop of `_detect_terrain_changes` with
`current_distance = 200·j` (the loop advances by exactly the 200 m
window size in every branch).  The state is the optional
(current_start_idx, current_terrain) plus the accumulated raw segments. -/
def detectStep (pts : List Pt) (total_distance : ℚ)
    (st : Option (ℕ × TerrainType) × List RawSeg) (j : ℕ) :
    Option (ℕ × TerrainType) × List RawSeg :=
  let current_distance : ℚ := 200 * j
  let window_end := min (current_distance + 200) total_distance
  match findPointAtDistance pts current_distance, findPointAtDistance pts window_end with
  | some start_idx, some end_idx =>
    if end_idx ≤ start_idx then st
    else
      match calcSegmentMetrics pts start_idx end_idx with
      | none => st
      | some m =>
        match st.1 with
        | none => (some (start_idx, m.terrain_type), st.2)
        | some (cs, ct) =>
          if m.terrain_type ≠ ct then
            (some (start_idx, m.terrain_type),
              st.2 ++ [{ start_idx := cs, end_idx := start_idx, terrain_type := ct }])
          else st
  | _, _ => st

/-- `TerrainSegmentAnalyzer._detect_terrain_changes`: the while loop runs
exactly for j with 200·j < total distance, i.e. ⌈total/200⌉ iterations,
then the trailing segment is appended. -/
def detectTerrainChanges (pts : List Pt) : List RawSeg :=
  if pts.length < 10 then []
  else
    let total_distance := lastDistanceM pts
    let st := (List.range (Int.toNat (Int.ceil (total_distance / 200)))).foldl
      (detectStep pts total_distance) (none, [])
    match st.1 with
    | some (cs, ct) =>
      if cs < pts.length - 1 then
        st.2 ++ [{ start_idx := cs, end_idx := pts.length - 1, terrain_type := ct }]
      else st.2
    | none => st.2

/-- `(end_dist - start_dist) / 1000` for a raw segment, as computed in
the merge and split passes. -/
def segLengthKm (pts : List Pt) (s : RawSeg) : ℚ :=
  ((pts.getD s.end_idx dfltPt).distance_m - (pts.getD s.start_idx dfltPt).distance_m) / 1000

/-- `prev = merged[-1]; prev["end_idx"] = current["end_idx"]` — replace
the end index of the last element. -/
def updateLastEnd : List RawSeg → ℕ → List RawSeg
  | [], _ => []
  | [s], e => [{ s with end_idx := e }]
  | s :: s2 :: rest, e => s :: updateLastEnd (s2 :: rest) e

/-- The index loop of `_merge_short_segments` (MIN_SEGMENT_LENGTH_KM =
0.3): a short segment is merged into the following one (which keeps its
own terrain type), or — when it is the last and output exists — absorbed
into the previous output segment; a short segment that is both first and
last is kept. -/
def mergeLoop (pts : List Pt) : List RawSeg → List RawSeg → List RawSeg
  | merged, [] => merged
  | merged, current :: rest =>
    if segLengthKm pts current < 3/10 then
      match rest with
      | next :: rest2 =>
        mergeLoop pts merged
          ({ start_idx := current.start_idx, end_idx := next.end_idx,
             terrain_type := next.terrain_type } :: rest2)
      | [] =>
        match merged with
        | [] => merged ++ [current]
        | _ :: _ => updateLastEnd merged current.end_idx
    else mergeLoop pts (merged ++ [current]) rest
termination_by _ l => l.length

/-- `TerrainSegmentAnalyzer._merge_short_segments`. -/
def mergeShortSegments (pts : List Pt) (segments : List RawSeg) : List RawSeg :=
  if segments.isEmpty then [] else mergeLoop pts [] segments

/-- The block loop of `_split_long_flat_descent_segments` for one long
flat/descent segment; `fuel` is a structural bound on the remaining
blocks (the caller passes ⌈length/5000⌉ + 1, which always suffices since
`current_start_m` advances to `min (current_start_m + 5000)
end_distance_m` every iteration). -/
def splitBlocks (pts : List Pt) (terrain_type : TerrainType) (end_distance_m : ℚ) :
    ℕ → ℕ → ℚ → List RawSeg
  | 0, _, _ => []
  | fuel + 1, current_start_idx, current_start_m =>
    if current_start_m < end_distance_m then
      let block_end_m := min (current_start_m + 5 * 1000) end_distance_m
      match findPointAtDistance pts block_end_m with
      | none => []
      | some block_end_idx =>
        { start_idx := current_start_idx, end_idx := block_end_idx,
          terrain_type := terrain_type } ::
          splitBlocks pts terrain_type end_distance_m fuel block_end_idx block_end_m
    else []

/-- `TerrainSegmentAnalyzer._split_long_flat_descent_segments`
(MAX_SEGMENT_LENGTH_KM = 5): climbs and short segments pass through
unchanged, long flat/descent segments become 5 km blocks. -/
def splitLongFlatDescentSegments (pts : List Pt) (segments : List RawSeg) : List RawSeg :=
  segments.bind fun segment =>
    let start_distance_m := (pts.getD segment.start_idx dfltPt).distance_m
    let end_distance_m := (pts.getD segment.end_idx dfltPt).distance_m
    let length_km := (end_distance_m - start_distance_m) / 1000
    if segment.terrain_type = TerrainType.climb ∨ length_km ≤ 5 then [segment]
    else
      splitBlocks pts segment.terrain_type end_distance_m
        (Int.toNat (Int.ceil ((end_distance_m - start_distance_m) / 5000)) + 1)
        segment.start_idx start_distance_m

/-- `TerrainSegment` dataclass (rounded exactly as `analyze` rounds). -/
structure TerrainSegment where
  segment_index : ℕ
  terrain_type : TerrainType
  grade_category : GradeCategory
  start_distance_km : ℚ
  end_distance_km : ℚ
  distance_km : ℚ
  elevation_start_m : ℚ
  elevation_end_m : ℚ
  elevation_change_m : ℚ
  average_grade_percent : ℚ
  time_seconds : ℚ
  pace_min_km : ℚ
  grade_adjusted_pace_min_km : ℚ
deriving DecidableEq, Repr

/-- The `TerrainSegment(...)` record built in `analyze`'s metric loop
(note: the terrain type comes from the raw segment, the grade category
from the metrics). -/
def mkTerrainSegment (idx : ℕ) (tt : TerrainType) (m : SegMetrics) : TerrainSegment :=
  { segment_index := idx
    terrain_type := tt
    grade_category := m.grade_category
    start_distance_km := roundTo 2 (m.start_distance_m / 1000)
    end_distance_km := roundTo 2 (m.end_distance_m / 1000)
    distance_km := roundTo 2 m.distance_km
    elevation_start_m := roundTo 0 m.elevation_start_m
    elevation_end_m := roundTo 0 m.elevation_end_m
    elevation_change_m := roundTo 0 m.elevation_change_m
    average_grade_percent := roundTo 1 m.grade_percent
    time_seconds := roundTo 0 m.time_seconds
    pace_min_km := roundTo 2 m.pace_min_km
    grade_adjusted_pace_min_km := roundTo 2 m.gap_min_km }

/-- The metric loop of `analyze`: enumerate the final segments, skip the
ones whose metrics are `None`, and build `TerrainSegment` records. -/
def buildSegments (pts : List Pt) (final_segments : List RawSeg) : List TerrainSegment :=
  final_segments.enum.filterMap fun is =>
    (calcSegmentMetrics pts is.2.start_idx is.2.end_idx).map fun m =>
      mkTerrainSegment is.1 is.2.terrain_type m

/-- `TerrainSegmentAnalysisResult` (the summary dict is omitted — no
claim concerns it). -/
structure TerrainSegmentAnalysisResult where
  activity_id : String
  total_distance_km : ℚ
  total_elevation_gain_m : ℚ
  total_elevation_loss_m : ℚ
  total_time_seconds : ℚ
  segments : List TerrainSegment
deriving DecidableEq, Repr

/-- `TerrainSegmentAnalyzer.analyze`: raises for fewer than 10 points
(`none` here), otherwise detect → merge → split → per-segment metrics. -/
def analyze (pts : List Pt) (activity_id : String) : Option TerrainSegmentAnalysisResult :=
  if pts.length < 10 then none
  else
    let raw_segments := detectTerrainChanges pts
    let merged_segments := mergeShortSegments pts raw_segments
    let final_segments := splitLongFlatDescentSegments pts merged_segments
    let kept := final_segments.filterMap fun seg =>
      calcSegmentMetrics pts seg.start_idx seg.end_idx
    let total_elevation_gain :=
      (kept.map fun m => if m.elevation_change_m > 0 then m.elevation_change_m else 0).sum
    let total_elevation_loss :=
      (kept.map fun m => if m.elevation_change_m > 0 then 0 else |m.elevation_change_m|).sum
    let total_time := (kept.map fun m => m.time_seconds).sum
    some
      { activity_id := activity_id
        total_distance_km := roundTo 2 (lastDistanceM pts / 1000)
        total_elevation_gain_m := roundTo 0 total_elevation_gain
        total_elevation_loss_m := roundTo 0 total_elevation_loss
        total_time_seconds := roundTo 0 total_time
        segments := buildSegments pts final_segments }


/-! #### Specification predicates for the terrain pipeline

These are not part of the source; they express the partition invariants
the claims are about. -/

/-- The raw-segment list forms an index chain from `a` to `b`: the first
segment starts at index `a`, each segment starts where the previous one
ended, and the last segment ends at index `b`. -/
def IdxChain : ℕ → List RawSeg → ℕ → Prop
  | a, [], b => a = b
  | a, s :: rest, b => s.start_idx = a ∧ IdxChain s.end_idx rest b

/-- The raw-segment list forms a chain of cumulative distances from `a`
to `b`. -/
def DistChain (pts : List Pt) : ℚ → List RawSeg → ℚ → Prop
  | a, [], b => a = b
  | a, s :: rest, b =>
    (pts.getD s.start_idx dfltPt).distance_m = a ∧
      DistChain pts (pts.getD s.end_idx dfltPt).distance_m rest b

/-- The final `TerrainSegment` list partitions `[a, b]`: the first
segment starts at `a`, segments are contiguous and ordered, and the last
segment ends at `b`. -/
def RoundChain : ℚ → List TerrainSegment → ℚ → Prop
  | a, [], b => a = b
  | a, s :: rest, b =>
    s.start_distance_km = a ∧ s.start_distance_km ≤ s.end_distance_km ∧
      RoundChain s.end_distance_km rest b

/-- Every raw segment has ordered in-range endpoints. -/
def SegBounds (pts : List Pt) (l : List RawSeg) : Prop :=
  ∀ s ∈ l, s.start_idx ≤ s.end_idx ∧ s.end_idx < pts.length

/-- The largest spacing between consecutive points (0 for degenerate
lists): the resolution at which `_find_point_at_distance` can overshoot a
target distance. -/
def maxGapM (pts : List Pt) : ℚ :=
  ((List.range (pts.length - 1)).map fun i =>
    (pts.getD (i + 1) dfltPt).distance_m - (pts.getD i dfltPt).distance_m).foldl max 0

end TerrainAnalyzer

/-- A concrete 10-point track (200 m spacing, timestamps every 80 s)
used to instantiate claim C5. -/
def c5WitnessPts : List Pt :=
  [{ elevation_smoothed := 0, time := some 0, distance_m := 0 },
   { elevation_smoothed := 0, time := some 80, distance_m := 200 },
   { elevation_smoothed := 0, time := some 160, distance_m := 400 },
   { elevation_smoothed := 0, time := some 240, distance_m := 600 },
   { elevation_smoothed := 0, time := some 320, distance_m := 800 },
   { elevation_smoothed := 0, time := some 400, distance_m := 1000 },
   { elevation_smoothed := 0, time := some 480, distance_m := 1200 },
   { elevation_smoothed := 0, time := some 560, distance_m := 1400 },
   { elevation_smoothed := 0, time := some 640, distance_m := 1600 },
   { elevation_smoothed := 0, time := some 720, distance_m := 1800 }]

/-- A 10-point series whose cumulative distances strictly decrease
(1000 m down to 100 m): the analyzer accepts it but produces no
segments while reporting a positive total distance. -/
def c1CtrPts : List Pt :=
  [{ elevation_smoothed := 0, time := none, distance_m := 1000 },
   { elevation_smoothed := 0, time := none, distance_m := 900 },
   { elevation_smoothed := 0, time := none, distance_m := 800 },
   { elevation_smoothed := 0, time := none, distance_m := 700 },
   { elevation_smoothed := 0, time := none, distance_m := 600 },
   { elevation_smoothed := 0, time := none, distance_m := 500 },
   { elevation_smoothed := 0, time := none, distance_m := 400 },
   { elevation_smoothed := 0, time := none, distance_m := 300 },
   { elevation_smoothed := 0, time := none, distance_m := 200 },
   { elevation_smoothed := 0, time := none, distance_m := 100 }]

/-- An 11-point flat 5.2-km track whose 5-km split boundary falls
exactly on the 9th point, leaving a 0.2-km tail block after the split
pass. -/
def c9CtrPts : List Pt :=
  [{ elevation_smoothed := 0, time := none, distance_m := 0 },
   { elevation_smoothed := 0, time := none, distance_m := 625 },
   { elevation_smoothed := 0, time := none, distance_m := 1250 },
   { elevation_smoothed := 0, time := none, distance_m := 1875 },
   { elevation_smoothed := 0, time := none, distance_m := 2500 },
   { elevation_smoothed := 0, time := none, distance_m := 3125 },
   { elevation_smoothed := 0, time := none, distance_m := 3750 },
   { elevation_smoothed := 0, time := none, distance_m := 4375 },
   { elevation_smoothed := 0, time := none, distance_m := 5000 },
   { elevation_smoothed := 0, time := none, distance_m := 5100 },
   { elevation_smoothed := 0, time := none, distance_m := 5200 }]

/-- Abbreviation used throughout the terrain proofs. -/
def ptDist (pts : List Pt) (i : ℕ) : ℚ := (pts.getD i dfltPt).distance_m

/-! ### Theorems -/

section CutoffClaims

open Predictor

/-- Claim C3, counterexample: a station whose cutoff is present but equal
to 0 hours does not follow the threshold classification of the claim.
With start time 0 and a predicted arrival 1 minute later, the buffer
against the real cutoff would be −1 minutes, so the claim's "otherwise"
branch demands status `missed`; the code returns `safe` with no cutoff
time and no buffer. -/
theorem C3_zero_cutoff_counterexample :
    calcCutoffStatus
      { id := "cp1", name := "CP1", distance_km := 10,
        distance_from_prev_km := none, elevation_m := none,
        elevation_gain_from_prev_m := none, elevation_loss_from_prev_m := none,
        cutoff_hours_from_start := some 0 } 0 1 =
      (none, none, CutoffStatus.safe) ∧
    CutoffStatus.safe ≠ CutoffStatus.missed := by
  constructor
  · rfl
  · decide

/-- Claim C3 (amended): if the station's cutoff is absent *or equal to 0
hours* the recorded status is safe and no buffer is reported; otherwise,
with buffer = cutoff time − predicted arrival (in minutes), the status is
missed exactly when buffer < 0, danger exactly when 0 ≤ buffer < 15,
warning exactly when 15 ≤ buffer < 30 and safe exactly when buffer ≥ 30. -/
theorem C3_cutoff_classification (station : AidStationInput) (start_time arrival : ℚ) :
    (station.cutoff_hours_from_start = none ∨ station.cutoff_hours_from_start = some 0 →
      calcCutoffStatus station start_time arrival = (none, none, CutoffStatus.safe)) ∧
    (∀ c, station.cutoff_hours_from_start = some c → c ≠ 0 →
      (calcCutoffStatus station start_time arrival).1 = some (start_time + c * 60) ∧
      (calcCutoffStatus station start_time arrival).2.1 =
        some (start_time + c * 60 - arrival) ∧
      (((calcCutoffStatus station start_time arrival).2.2 = CutoffStatus.missed ↔
          start_time + c * 60 - arrival < 0) ∧
       ((calcCutoffStatus station start_time arrival).2.2 = CutoffStatus.danger ↔
          0 ≤ start_time + c * 60 - arrival ∧ start_time + c * 60 - arrival < 15) ∧
       ((calcCutoffStatus station start_time arrival).2.2 = CutoffStatus.warning ↔
          15 ≤ start_time + c * 60 - arrival ∧ start_time + c * 60 - arrival < 30) ∧
       ((calcCutoffStatus station start_time arrival).2.2 = CutoffStatus.safe ↔
          30 ≤ start_time + c * 60 - arrival))) := by
  constructor
  · rintro (h | h) <;> simp [calcCutoffStatus, h]
  · intro c hc hc0
    set b := start_time + c * 60 - arrival with hb
    have hcalc : calcCutoffStatus station start_time arrival =
        (some (start_time + c * 60), some b,
          if b < 0 then CutoffStatus.missed
          else if b < 15 then CutoffStatus.danger
          else if b < 30 then CutoffStatus.warning
          else CutoffStatus.safe) := by
      rw [calcCutoffStatus, hc]
      simp [hc0, hb]
    rw [hcalc]
    refine ⟨rfl, rfl, ?_, ?_, ?_, ?_⟩ <;> split_ifs with h1 h2 h3 <;> simp <;>
      first
        | linarith
        | (exact ⟨by linarith, by linarith⟩)
        | (rintro ⟨hA, hB⟩; linarith)
        | (intro hx; linarith)

/-- Claim C3, witness: a present 2-hour cutoff with arrival at minute 100
(buffer 20) is classified `warning`. -/
theorem C3_cutoff_classification_witness :
    (calcCutoffStatus
      { id := "cp2", name := "CP2", distance_km := 10,
        distance_from_prev_km := none, elevation_m := none,
        elevation_gain_from_prev_m := none, elevation_loss_from_prev_m := none,
        cutoff_hours_from_start := some 2 } 0 100).2.2 = CutoffStatus.warning := by
  have h := (C3_cutoff_classification
    { id := "cp2", name := "CP2", distance_km := 10,
      distance_from_prev_km := none, elevation_m := none,
      elevation_gain_from_prev_m := none, elevation_loss_from_prev_m := none,
      cutoff_hours_from_start := some 2 } 0 100).2 2 rfl (by norm_num)
  exact h.2.2.2.2.1.mpr (by norm_num)

/-- Claim C4: the code conflates a cutoff of exactly 0 hours with a
missing cutoff.  `_calculate_cutoff_status` guards with
`if not station.cutoff_hours_from_start:`, which is taken for the value
`0.0`, so a station whose cutoff equals the start time is reported
`safe` with no cutoff time and no buffer instead of being evaluated
against a real cutoff (which would make any strictly later arrival
`missed`). -/
theorem C4_zero_cutoff_is_treated_as_missing :
    calcCutoffStatus
      { id := "a1", name := "Alpha", distance_km := 10,
        distance_from_prev_km := none, elevation_m := none,
        elevation_gain_from_prev_m := none, elevation_loss_from_prev_m := none,
        cutoff_hours_from_start := some 0 } 0 30 =
      (none, none, CutoffStatus.safe) ∧
    calcCutoffStatus
      { id := "a1", name := "Alpha", distance_km := 10,
        distance_from_prev_km := none, elevation_m := none,
        elevation_gain_from_prev_m := none, elevation_loss_from_prev_m := none,
        cutoff_hours_from_start := none } 0 30 =
      (none, none, CutoffStatus.safe) := ⟨rfl, rfl⟩

end CutoffClaims

section FatigueClaims

open Predictor

lemma lookup_mem {k : ℤ} {v : ℚ} :
    ∀ {es : List (ℤ × ℚ)}, List.lookup k es = some v → (k, v) ∈ es := by
  intro es
  induction es with
  | nil => intro h; simp [List.lookup] at h
  | cons e es ih =>
    intro h
    rcases e with ⟨a, b⟩
    rw [List.lookup] at h
    by_cases hak : (k == a) = true
    · rw [hak] at h
      have hka : k = a := beq_iff_eq.mp hak
      have hbv : b = v := by simpa using h
      subst hka; subst hbv
      exact List.mem_cons_self _ _
    · rw [eq_false_of_ne_true hak] at h
      exact List.mem_cons_of_mem _ (ih h)

lemma interpScan_allLe (p : ℚ) :
    ∀ (l : List (ℤ × ℚ)) (prev : ℤ × ℚ), (∀ kv ∈ l, (kv.1 : ℚ) ≤ p) →
      interpScan p prev l = (l.getLastD prev).2 := by
  intro l
  induction l with
  | nil => intro prev _; rfl
  | cons a l ih =>
    intro prev h
    rcases a with ⟨pct, mult⟩
    have hle : (pct : ℚ) ≤ p := h (pct, mult) (List.mem_cons_self _ _)
    rw [interpScan, if_neg (not_lt.mpr hle), List.getLastD_cons]
    exact ih (pct, mult) fun kv hkv => h kv (List.mem_cons_of_mem _ hkv)

lemma interpScan_prefix (p : ℚ) :
    ∀ (pre : List (ℤ × ℚ)) (prev : ℤ × ℚ) (rest : List (ℤ × ℚ)),
      (∀ kv ∈ pre, (kv.1 : ℚ) ≤ p) →
      interpScan p prev (pre ++ rest) = interpScan p (pre.getLastD prev) rest := by
  intro pre
  induction pre with
  | nil => intro prev rest _; rfl
  | cons a pre ih =>
    intro prev rest h
    rcases a with ⟨pct, mult⟩
    have hle : (pct : ℚ) ≤ p := h (pct, mult) (List.mem_cons_self _ _)
    rw [List.cons_append, interpScan, if_neg (not_lt.mpr hle), List.getLastD_cons]
    exact ih (pct, mult) rest fun kv hkv => h kv (List.mem_cons_of_mem _ hkv)

lemma getLast?_mem {α : Type} {l : List α} {a : α} (h : l.getLast? = some a) : a ∈ l := by
  rcases List.mem_getLast?_eq_getLast (x := a) h with ⟨hne, hx⟩
  rw [hx]
  exact List.getLast_mem hne

lemma sorted_key_le_last :
    ∀ (l : List (ℤ × ℚ)) (lst : ℤ × ℚ),
      List.Pairwise (fun a b : ℤ × ℚ => a.1 < b.1) l →
      l.getLast? = some lst → ∀ kv ∈ l, kv.1 ≤ lst.1 := by
  intro l
  induction l with
  | nil => intro lst _ hl; simp at hl
  | cons a l ih =>
    intro lst hs hl kv hkv
    cases l with
    | nil =>
      have ha : a = lst := by simpa using hl
      have hk : kv = a := by simpa using hkv
      rw [hk, ha]
    | cons b l2 =>
      rw [List.getLast?_cons_cons] at hl
      rcases List.mem_cons.mp hkv with h | h
      · have hmem : lst ∈ b :: l2 := getLast?_mem hl
        rw [h]
        exact le_of_lt ((List.pairwise_cons.mp hs).1 lst hmem)
      · exact ih lst (List.pairwise_cons.mp hs).2 hl kv h

lemma sorted_key_inj :
    ∀ (l : List (ℤ × ℚ)),
      List.Pairwise (fun a b : ℤ × ℚ => a.1 < b.1) l →
      ∀ x ∈ l, ∀ y ∈ l, x.1 = y.1 → x = y := by
  intro l
  induction l with
  | nil => simp
  | cons a l ih =>
    intro hs x hx y hy hk
    rcases List.pairwise_cons.mp hs with ⟨ha, hs2⟩
    rcases List.mem_cons.mp hx with hx | hx <;> rcases List.mem_cons.mp hy with hy | hy
    · rw [hx, hy]
    · exfalso
      have hlt : a.1 < y.1 := ha y hy
      rw [hx] at hk
      exact absurd hk (ne_of_lt hlt)
    · exfalso
      have hlt : a.1 < x.1 := ha x hx
      rw [hy] at hk
      exact absurd hk.symm (ne_of_lt hlt)
    · exact ih hs2 x hx y hy hk

lemma calcFatigueFactor_nil (perf : PerformanceProfile) (d D : ℚ) (hD : 0 < D)
    (h : perf.pace_decay_by_progress_pct = []) :
    calcFatigueFactor perf d D = 1 + (perf.fatigue_factor - 1) * (d / D) := by
  rw [calcFatigueFactor, if_neg (not_le.mpr hD), h]

lemma calcFatigueFactor_cons (perf : PerformanceProfile) (d D : ℚ) (hD : 0 < D)
    (first : ℤ × ℚ) (rest : List (ℤ × ℚ))
    (h : perf.pace_decay_by_progress_pct = first :: rest) :
    calcFatigueFactor perf d D =
      (match (first :: rest).lookup (10 * min (Int.floor (d / D * 100 / 10)) 9) with
       | some v => v
       | none => interpScan (d / D * 100) first rest) := by
  rw [calcFatigueFactor, if_neg (not_le.mpr hD), h]

/-- Claim C2, counterexample: with the decay map `{ "50-60" ↦ 1.05,
"90-100" ↦ 1.2 }` and a query at 20 % of the race, the bucket "20-30" is
absent and 20 lies *below* the range of known buckets, so the claim
demands the clamped value 1.05; the code extrapolates through the two
lowest buckets and returns 0.9375 instead. -/
theorem C2_below_range_counterexample :
    calcFatigueFactor
      { flat_pace_min_km := 6.5, climbing_pace_min_km := 12,
        descending_pace_min_km := 5.5, fatigue_factor := 1.08,
        pace_decay_by_progress_pct := [(50, 21/20), (90, 6/5)] } 20 100 = 15/16 ∧
    (15/16 : ℚ) ≠ 21/20 := by
  refine ⟨?_, by norm_num⟩
  rw [calcFatigueFactor_cons _ _ _ (by norm_num) (50, 21/20) [(90, 6/5)] rfl]
  have h1 : ((20 : ℤ) == 50) = false := by decide
  have h2 : ((20 : ℤ) == 90) = false := by decide
  norm_num [List.lookup, interpScan, h1, h2]

/-- Claim C2 (amended): characterization of `_calculate_fatigue_factor`.
With progress p = (distance/total)×100 and a key-sorted decay map:
(1) an absent/empty map falls back to the linear model
1 + (fatigue − 1)×(distance/total); (2) if the bucket `⌊p/10⌋` is present
(p in [0,100)) its value is returned; (3) a one-bucket map always returns
that bucket's value; (4) if the bucket is absent and p lies between two
known buckets, the value is linearly interpolated between the two
surrounding buckets by their lower bounds; (5) if the bucket is absent
and p lies *below* all known buckets (at least two), the value is
linearly *extrapolated* through the two lowest buckets — not clamped as
the claim stated; (6) if p lies at or above all known buckets (keys being
the standard multiples of 10 up to 90) the value is clamped to the
highest bucket. -/
theorem C2_fatigue_lookup_characterization (perf : PerformanceProfile) (d D : ℚ)
    (hD : 0 < D) :
    (perf.pace_decay_by_progress_pct = [] →
      calcFatigueFactor perf d D = 1 + (perf.fatigue_factor - 1) * (d / D)) ∧
    (∀ v, 0 ≤ d / D * 100 → d / D * 100 < 100 →
      perf.pace_decay_by_progress_pct.lookup (10 * Int.floor (d / D * 100 / 10)) = some v →
      calcFatigueFactor perf d D = v) ∧
    (∀ (l : ℤ) (v : ℚ), perf.pace_decay_by_progress_pct = [(l, v)] →
      calcFatigueFactor perf d D = v) ∧
    (∀ (pre : List (ℤ × ℚ)) (l₁ : ℤ) (v₁ : ℚ) (l₂ : ℤ) (v₂ : ℚ) (suf : List (ℤ × ℚ)),
      perf.pace_decay_by_progress_pct = pre ++ (l₁, v₁) :: (l₂, v₂) :: suf →
      List.Pairwise (fun a b : ℤ × ℚ => a.1 < b.1) perf.pace_decay_by_progress_pct →
      perf.pace_decay_by_progress_pct.lookup
        (10 * min (Int.floor (d / D * 100 / 10)) 9) = none →
      (l₁ : ℚ) ≤ d / D * 100 → d / D * 100 < (l₂ : ℚ) →
      calcFatigueFactor perf d D =
        v₁ + ((d / D * 100 - (l₁ : ℚ)) / ((l₂ : ℚ) - (l₁ : ℚ))) * (v₂ - v₁)) ∧
    (∀ (l₁ : ℤ) (v₁ : ℚ) (l₂ : ℤ) (v₂ : ℚ) (suf : List (ℤ × ℚ)),
      perf.pace_decay_by_progress_pct = (l₁, v₁) :: (l₂, v₂) :: suf →
      List.Pairwise (fun a b : ℤ × ℚ => a.1 < b.1) perf.pace_decay_by_progress_pct →
      perf.pace_decay_by_progress_pct.lookup
        (10 * min (Int.floor (d / D * 100 / 10)) 9) = none →
      d / D * 100 < (l₁ : ℚ) →
      calcFatigueFactor perf d D =
        v₁ + ((d / D * 100 - (l₁ : ℚ)) / ((l₂ : ℚ) - (l₁ : ℚ))) * (v₂ - v₁)) ∧
    (perf.pace_decay_by_progress_pct ≠ [] →
      List.Pairwise (fun a b : ℤ × ℚ => a.1 < b.1) perf.pace_decay_by_progress_pct →
      (∀ kv ∈ perf.pace_decay_by_progress_pct, ∃ m : ℕ, m ≤ 9 ∧ kv.1 = 10 * (m : ℤ)) →
      (∀ kv ∈ perf.pace_decay_by_progress_pct, (kv.1 : ℚ) ≤ d / D * 100) →
      ∀ lst, perf.pace_decay_by_progress_pct.getLast? = some lst →
        calcFatigueFactor perf d D = lst.2) := by
  refine ⟨fun h => calcFatigueFactor_nil perf d D hD h, ?_, ?_, ?_, ?_, ?_⟩
  · -- bucket hit
    intro v h0 h100 hlk
    cases hdec : perf.pace_decay_by_progress_pct with
    | nil => rw [hdec] at hlk; simp [List.lookup] at hlk
    | cons f r =>
      have hfl : Int.floor (d / D * 100 / 10) ≤ 9 := by
        have : d / D * 100 / 10 < (10 : ℚ) := by linarith
        have h10 : Int.floor (d / D * 100 / 10) < (10 : ℤ) :=
          Int.floor_lt.mpr (by exact_mod_cast this)
        omega
      have hmin : min (Int.floor (d / D * 100 / 10)) 9 = Int.floor (d / D * 100 / 10) :=
        min_eq_left hfl
      rw [hdec] at hlk
      rw [calcFatigueFactor_cons perf d D hD f r hdec, hmin, hlk]
  · -- single bucket
    intro l v hdec
    rw [calcFatigueFactor_cons perf d D hD (l, v) [] hdec]
    cases hL : List.lookup (10 * min (Int.floor (d / D * 100 / 10)) 9) [(l, v)] with
    | none => simp [hL, interpScan]
    | some w =>
      have hmem := lookup_mem hL
      have hw : w = v := by
        have h2 := hmem
        simp at h2
        exact h2.2
      simp [hw]
  · -- interpolation between surrounding buckets
    intro pre l₁ v₁ l₂ v₂ suf hsplit hs hlk hp1 hp2
    rw [hsplit] at hlk hs
    cases pre with
    | nil =>
      rw [calcFatigueFactor_cons perf d D hD (l₁, v₁) ((l₂, v₂) :: suf) hsplit]
      simp only [List.nil_append] at hlk
      rw [hlk]
      rw [interpScan, if_pos hp2]
    | cons q pre2 =>
      have hsplit2 : perf.pace_decay_by_progress_pct =
          q :: (pre2 ++ (l₁, v₁) :: (l₂, v₂) :: suf) := by
        rw [hsplit, List.cons_append]
      rw [calcFatigueFactor_cons perf d D hD q (pre2 ++ (l₁, v₁) :: (l₂, v₂) :: suf) hsplit2]
      have hlk2 : List.lookup (10 * min (Int.floor (d / D * 100 / 10)) 9)
          (q :: (pre2 ++ (l₁, v₁) :: (l₂, v₂) :: suf)) = none := by
        rw [← List.cons_append]; exact hlk
      rw [hlk2]
      have hcross := (List.pairwise_append.mp (by rwa [List.cons_append] at hs)).2.2
      have hkeys : ∀ kv ∈ pre2 ++ [(l₁, v₁)], (kv.1 : ℚ) ≤ d / D * 100 := by
        intro kv hkv
        rcases List.mem_append.mp hkv with hkv | hkv
        · have hlt : kv.1 < l₁ :=
            hcross kv (List.mem_cons_of_mem _ hkv) (l₁, v₁) (List.mem_cons_self _ _)
          calc (kv.1 : ℚ) ≤ (l₁ : ℚ) := by exact_mod_cast le_of_lt hlt
            _ ≤ d / D * 100 := hp1
        · have : kv = (l₁, v₁) := by simpa using hkv
          rw [this]; exact hp1
      have hre : pre2 ++ (l₁, v₁) :: (l₂, v₂) :: suf =
          (pre2 ++ [(l₁, v₁)]) ++ ((l₂, v₂) :: suf) := by
        rw [List.append_assoc, List.singleton_append]
      rw [hre, interpScan_prefix _ _ _ _ hkeys]
      have hgl : (pre2 ++ [(l₁, v₁)]).getLastD q = (l₁, v₁) := by
        rw [List.getLastD_eq_getLast?, List.getLast?_concat]
        rfl
      rw [hgl, interpScan, if_pos hp2]
  · -- extrapolation below the known range
    intro l₁ v₁ l₂ v₂ suf hdec hs hlk hp
    rw [hdec] at hlk hs
    rw [calcFatigueFactor_cons perf d D hD (l₁, v₁) ((l₂, v₂) :: suf) hdec, hlk]
    have hl12 : (l₁ : ℚ) < (l₂ : ℚ) := by
      have := (List.pairwise_cons.mp hs).1 (l₂, v₂) (List.mem_cons_self _ _)
      exact_mod_cast this
    rw [interpScan, if_pos (lt_trans hp hl12)]
  · -- clamped to the highest bucket at or above the known range
    intro hne hs hkeys hle lst hlast
    cases hdec : perf.pace_decay_by_progress_pct with
    | nil => exact absurd hdec hne
    | cons f r =>
      rw [hdec] at hs hkeys hle hlast
      rw [calcFatigueFactor_cons perf d D hD f r hdec]
      have hblmax : ∀ kv ∈ f :: r, kv.1 ≤ 10 * min (Int.floor (d / D * 100 / 10)) 9 := by
        intro kv hkv
        rcases hkeys kv hkv with ⟨m, hm9, hmk⟩
        have hple : ((kv.1 : ℤ) : ℚ) ≤ d / D * 100 := hle kv hkv
        have hm : ((m : ℤ) : ℚ) ≤ d / D * 100 / 10 := by
          rw [hmk] at hple
          push_cast at hple ⊢
          linarith
        have hmf : (m : ℤ) ≤ Int.floor (d / D * 100 / 10) := Int.le_floor.mpr hm
        have hmf9 : (m : ℤ) ≤ min (Int.floor (d / D * 100 / 10)) 9 :=
          le_min hmf (by exact_mod_cast hm9)
        rw [hmk]
        linarith
      cases hL : List.lookup (10 * min (Int.floor (d / D * 100 / 10)) 9) (f :: r) with
      | some w =>
        have hmem := lookup_mem hL
        have h1 : (10 * min (Int.floor (d / D * 100 / 10)) 9 : ℤ) ≤ lst.1 :=
          sorted_key_le_last (f :: r) lst hs hlast _ hmem
        have h2 : lst.1 ≤ 10 * min (Int.floor (d / D * 100 / 10)) 9 :=
          hblmax lst (getLast?_mem hlast)
        have heq := sorted_key_inj (f :: r) hs _ hmem lst (getLast?_mem hlast)
          (le_antisymm h2 h1).symm
        show w = lst.2
        rw [← heq]
      | none =>
        show interpScan (d / D * 100) f r = lst.2
        have hscan := interpScan_allLe (d / D * 100) r f
          (fun kv hkv => hle kv (List.mem_cons_of_mem _ hkv))
        rw [hscan, List.getLastD_eq_getLast?]
        rw [List.getLast?_cons] at hlast
        have : r.getLast?.getD f = lst := by
          injection hlast
        rw [this]

/-- Claim C2, witness: at 95 % progress the bucket "90-100" is present and
its multiplier 1.2 is returned. -/
theorem C2_fatigue_lookup_characterization_witness :
    calcFatigueFactor
      { flat_pace_min_km := 6.5, climbing_pace_min_km := 12,
        descending_pace_min_km := 5.5, fatigue_factor := 1.08,
        pace_decay_by_progress_pct := [(0, 1), (90, 6/5)] } 95 100 = 6/5 := by
  have h := (C2_fatigue_lookup_characterization
    { flat_pace_min_km := 6.5, climbing_pace_min_km := 12,
      descending_pace_min_km := 5.5, fatigue_factor := 1.08,
      pace_decay_by_progress_pct := [(0, 1), (90, 6/5)] } 95 100 (by norm_num)).2.1
  refine h (6/5) (by norm_num) (by norm_num) ?_
  have hk : (10 * Int.floor ((95 : ℚ) / 100 * 100 / 10) : ℤ) = 90 := by norm_num
  rw [hk]
  have h1 : ((90 : ℤ) == 0) = false := by decide
  have h2 : ((90 : ℤ) == 90) = true := by decide
  simp [List.lookup, h1, h2]

end FatigueClaims

section BufferClaims

open Predictor

lemma cutoffResult_fields (st : AidStationInput) (start A t : ℚ)
    (ht : (calcCutoffStatus st start A).1 = some t) :
    (t = A → (calcCutoffStatus st start A).2.2 = CutoffStatus.danger ∧
      (match (calcCutoffStatus st start A).2.1 with
       | none => none
       | some b => if b = 0 then none else some ((pyRound b : ℤ) : ℚ)) = (none : Option ℚ)) ∧
    (t ≠ A →
      (match (calcCutoffStatus st start A).2.1 with
       | none => none
       | some b => if b = 0 then none else some ((pyRound b : ℤ) : ℚ)) =
        some ((pyRound (t - A) : ℤ) : ℚ)) := by
  rcases hcut : st.cutoff_hours_from_start with _ | c
  · exfalso
    simp [calcCutoffStatus, hcut] at ht
  · by_cases hc0 : c = 0
    · exfalso
      subst hc0
      simp [calcCutoffStatus, hcut] at ht
    · have hcalc : calcCutoffStatus st start A =
          (some (start + c * 60), some (start + c * 60 - A),
            if start + c * 60 - A < 0 then CutoffStatus.missed
            else if start + c * 60 - A < 15 then CutoffStatus.danger
            else if start + c * 60 - A < 30 then CutoffStatus.warning
            else CutoffStatus.safe) := by
        rw [calcCutoffStatus, hcut]
        simp [hc0]
      rw [hcalc] at ht ⊢
      have htc : start + c * 60 = t := by simpa using ht
      constructor
      · intro hta
        have hb0 : start + c * 60 - A = 0 := by rw [htc, hta]; ring
        rw [hb0]
        norm_num
      · intro hta
        have hbne : t - A ≠ 0 := fun hx => hta (by linarith)
        simp only [htc]
        rw [if_neg hbne]

/-- Claim C10: in every prediction run, a station whose cutoff buffer is
exactly 0 minutes gets status `danger` but a `buffer_minutes` of `None`
(the Python falsy test `if buffer_minutes` drops the legitimate value
0.0), while any station with a nonzero buffer carries the rounded buffer
value. -/
theorem C10_zero_buffer_reported_as_none (perf : PerformanceProfile)
    (sd start total bp : ℚ) :
    ∀ (cum prevD : ℚ) (stations : List AidStationInput),
      ∀ r ∈ predictFrom perf sd start total bp cum prevD stations,
        ∀ t, r.cutoff_time = some t →
          ((t = r.predicted_arrival_time →
              r.status = CutoffStatus.danger ∧ r.buffer_minutes = none) ∧
           (t ≠ r.predicted_arrival_time →
              r.buffer_minutes =
                some ((pyRound (t - r.predicted_arrival_time) : ℤ) : ℚ))) := by
  intro cum prevD stations
  induction stations generalizing cum prevD with
  | nil => intro r hr; simp [predictFrom] at hr
  | cons st rest ih =>
    intro r hr t ht
    rw [predictFrom] at hr
    rcases List.mem_cons.mp hr with hr | hr
    · subst hr
      exact cutoffResult_fields st start
        (predictStep perf sd start total bp cum prevD st).2.predicted_arrival_time t ht
    · exact ih _ _ r hr t ht

/-- Claim C10, witness: a one-station run in which the predicted arrival
coincides exactly with the 1-hour cutoff (flat 6 min/km pace over 10 km
starting at noon): status is `danger` and `buffer_minutes` is `None`. -/
theorem C10_zero_buffer_witness :
    ∃ r ∈ predict
      { flat_pace_min_km := 6, climbing_pace_min_km := 12,
        descending_pace_min_km := 5.5, fatigue_factor := 1,
        pace_decay_by_progress_pct := [] } 0.15
      [{ id := "s1", name := "S1", distance_km := 10,
         distance_from_prev_km := none, elevation_m := none,
         elevation_gain_from_prev_m := none, elevation_loss_from_prev_m := none,
         cutoff_hours_from_start := some 1 }] 720 100 none,
      r.status = CutoffStatus.danger ∧ r.buffer_minutes = none := by
  refine ⟨_, List.mem_singleton_self _, ?_⟩
  have h := C10_zero_buffer_reported_as_none
    { flat_pace_min_km := 6, climbing_pace_min_km := 12,
      descending_pace_min_km := 5.5, fatigue_factor := 1,
      pace_decay_by_progress_pct := [] } 0.15 720 100 6 0 0
    [{ id := "s1", name := "S1", distance_km := 10,
       distance_from_prev_km := none, elevation_m := none,
       elevation_gain_from_prev_m := none, elevation_loss_from_prev_m := none,
       cutoff_hours_from_start := some 1 }]
    _ (List.mem_cons_self _ _) 780 ?hc
  case hc => norm_num [predictStep, calcCutoffStatus]
  exact h.1 (by norm_num [predictStep, calcTerrainFactor, calcFatigueFactor,
    getSegmentDistance, isNighttime, minettiCostClamped, minettiCost])

section MinettiClaims

lemma minetti_aux_quartic (x : ℚ) (hx : 0 < x) :
    (953.5 : ℚ) * x^2 < 1250 * x^4 + 463 * x + 97.5 := by
  rcases le_or_lt x (1/5) with hsmall | hbig
  · have hx2 : x^2 ≤ x/5 := by nlinarith [mul_le_mul_of_nonneg_left hsmall hx.le]
    nlinarith [pow_pos hx 4, hx]
  · rcases le_or_lt x 2 with hmid | hlarge
    · nlinarith [sq_nonneg (x^2 - 19/50), hx, hbig, hmid]
    · nlinarith [mul_pos hx hx, hlarge, sq_nonneg (x^2 - 4)]

set_option maxHeartbeats 800000 in
lemma minetti_strict_mono (a b : ℚ) (ha : 0 < a) (hab : a < b) :
    minettiCost a < minettiCost b := by
  have hb : 0 < b := lt_trans ha hab
  have h1 : 2 * b^3 ≤ b^4 + b^2 := by nlinarith [sq_nonneg (b^2 - b)]
  have h2 : 2 * (b^2 * a) ≤ b^4 + a^2 := by nlinarith [sq_nonneg (b^2 - a)]
  have h3 : 2 * (b * a^2) ≤ a^4 + b^2 := by nlinarith [sq_nonneg (a^2 - b)]
  have h4 : 2 * a^3 ≤ a^4 + a^2 := by nlinarith [sq_nonneg (a^2 - a)]
  have h5 : 2 * (a * b) ≤ a^2 + b^2 := by nlinarith [sq_nonneg (a - b)]
  have hqa := minetti_aux_quartic a ha
  have hqb := minetti_aux_quartic b hb
  have hcross1 : 0 < b^3 * a := by positivity
  have hcross2 : 0 < b^2 * a^2 := by positivity
  have hcross3 : 0 < b * a^3 := by positivity
  have hbracket : 0 < 155.4 * (b^4 + b^3*a + b^2*a^2 + b*a^3 + a^4)
        - 30.4 * (b^3 + b^2*a + b*a^2 + a^3)
        - 43.3 * (b^2 + b*a + a^2)
        + 46.3 * (b + a) + 19.5 := by
    nlinarith [h1, h2, h3, h4, h5, hqa, hqb, hcross1, hcross2, hcross3]
  have key : minettiCost b - minettiCost a =
      (b - a) * (155.4 * (b^4 + b^3*a + b^2*a^2 + b*a^3 + a^4)
        - 30.4 * (b^3 + b^2*a + b*a^2 + a^3)
        - 43.3 * (b^2 + b*a + a^2)
        + 46.3 * (b + a) + 19.5) := by
    simp only [minettiCost]
    ring
  nlinarith [mul_pos (sub_pos.mpr hab) hbracket]

lemma minetti_small_descent (g : ℚ) (h1 : -(1/10) < g) (h2 : g < 0) :
    minettiCost g < minettiCost 0 := by
  have key : minettiCost g - minettiCost 0 =
      g * (155.4 * g^4 - 30.4 * g^3 - 43.3 * g^2 + 46.3 * g + 19.5) := by
    simp only [minettiCost]
    ring
  have hg4 : 0 ≤ g^4 := by positivity
  have hg3 : 0 < - g^3 := by
    nlinarith [mul_pos (mul_pos (neg_pos.mpr h2) (neg_pos.mpr h2)) (neg_pos.mpr h2)]
  have hgsq : g^2 < 1/100 := by
    nlinarith [mul_lt_mul_of_pos_left (show -g < 1/10 by linarith) (neg_pos.mpr h2)]
  have hbracket : 0 < 155.4 * g^4 - 30.4 * g^3 - 43.3 * g^2 + 46.3 * g + 19.5 := by
    nlinarith [hg4, hg3, hgsq]
  nlinarith [mul_pos (neg_pos.mpr h2) hbracket]

/-- Claim C7: the terrain cost polynomial has cost(0) = 3.6, is strictly
increasing on gradients > 0, and every gradient in (−0.1, 0) costs
strictly less than flat ground. -/
theorem C7_minetti_cost_properties :
    minettiCost 0 = 3.6 ∧
    (∀ a b : ℚ, 0 < a → a < b → minettiCost a < minettiCost b) ∧
    (∀ g : ℚ, -(1/10) < g → g < 0 → minettiCost g < minettiCost 0) :=
  ⟨by norm_num [minettiCost], minetti_strict_mono, minetti_small_descent⟩

/-- Claim C7, witness: the theorem applied at gradients 0.1 < 0.2 and at
−0.05. -/
theorem C7_minetti_cost_properties_witness :
    minettiCost (1/10) < minettiCost (2/10) ∧
    minettiCost (-(1/20)) < minettiCost 0 :=
  ⟨C7_minetti_cost_properties.2.1 (1/10) (2/10) (by norm_num) (by norm_num),
   C7_minetti_cost_properties.2.2 (-(1/20)) (by norm_num) (by norm_num)⟩

end MinettiClaims

section SmootherClaims

lemma kalmanPass_length : ∀ (l : List ℚ) (x P : ℚ), (kalmanPass x P l).length = l.length := by
  intro l
  induction l with
  | nil => intro x P; rfl
  | cons e rest ih => intro x P; simp [kalmanPass, ih]

lemma kalmanSmooth_cons (e : ℚ) (rest : List ℚ) :
    kalmanSmoothElevation (e :: rest) = e :: kalmanPass e 1 rest := by
  cases rest with
  | nil => rfl
  | cons f rs =>
    rw [kalmanSmoothElevation, if_neg]
    simp

lemma kalmanPass_chain_lt : ∀ (l : List ℚ) (x P : ℚ), 0 < P →
    List.Chain (· < ·) x l → List.Chain (· < ·) x (kalmanPass x P l) := by
  intro l
  induction l with
  | nil => intro x P _ _; exact List.Chain.nil
  | cons e rest ih =>
    intro x P hP hch
    rcases List.chain_cons.mp hch with ⟨hxe, hch2⟩
    rw [kalmanPass]
    have hPp : 0 < P + 0.1 := by linarith
    have hK0 : 0 < (P + 0.1) / (P + 0.1 + 10) := by positivity
    have hK1 : (P + 0.1) / (P + 0.1 + 10) < 1 := by
      rw [div_lt_one (by linarith)]
      linarith
    set K := (P + 0.1) / (P + 0.1 + 10) with hKdef
    have hx2lt : x < x + K * (e - x) := by nlinarith
    have hx2e : x + K * (e - x) < e := by nlinarith
    have hP2 : 0 < (1 - K) * (P + 0.1) := by
      apply mul_pos (by linarith) hPp
    refine List.chain_cons.mpr ⟨hx2lt, ?_⟩
    apply ih _ _ hP2
    cases rest with
    | nil => exact List.Chain.nil
    | cons f rs =>
      rcases List.chain_cons.mp hch2 with ⟨hef, hch3⟩
      exact List.chain_cons.mpr ⟨lt_trans hx2e hef, hch3⟩

lemma kalmanPass_chain_gt : ∀ (l : List ℚ) (x P : ℚ), 0 < P →
    List.Chain (· > ·) x l → List.Chain (· > ·) x (kalmanPass x P l) := by
  intro l
  induction l with
  | nil => intro x P _ _; exact List.Chain.nil
  | cons e rest ih =>
    intro x P hP hch
    rcases List.chain_cons.mp hch with ⟨hxe, hch2⟩
    rw [kalmanPass]
    have hPp : 0 < P + 0.1 := by linarith
    have hK0 : 0 < (P + 0.1) / (P + 0.1 + 10) := by positivity
    have hK1 : (P + 0.1) / (P + 0.1 + 10) < 1 := by
      rw [div_lt_one (by linarith)]
      linarith
    set K := (P + 0.1) / (P + 0.1 + 10) with hKdef
    have hx2lt : x + K * (e - x) < x := by nlinarith
    have hx2e : e < x + K * (e - x) := by nlinarith
    have hP2 : 0 < (1 - K) * (P + 0.1) := by
      apply mul_pos (by linarith) hPp
    refine List.chain_cons.mpr ⟨hx2lt, ?_⟩
    apply ih _ _ hP2
    cases rest with
    | nil => exact List.Chain.nil
    | cons f rs =>
      rcases List.chain_cons.mp hch2 with ⟨hef, hch3⟩
      exact List.chain_cons.mpr ⟨lt_trans hef hx2e, hch3⟩

/-- Claim C6: the elevation smoother preserves the length of every
input and the first element; it maps strictly increasing inputs to
strictly increasing outputs and strictly decreasing inputs to strictly
decreasing outputs; and the extraction step applies it only to series of
more than 5 points, copying the raw elevations unchanged otherwise. -/
theorem C6_smoother_properties :
    (∀ elevations : List ℚ,
      (kalmanSmoothElevation elevations).length = elevations.length) ∧
    (∀ (e : ℚ) (rest : List ℚ),
      (kalmanSmoothElevation (e :: rest)).head? = some e) ∧
    (∀ elevations : List ℚ, List.Chain' (· < ·) elevations →
      List.Chain' (· < ·) (kalmanSmoothElevation elevations)) ∧
    (∀ elevations : List ℚ, List.Chain' (· > ·) elevations →
      List.Chain' (· > ·) (kalmanSmoothElevation elevations)) ∧
    (∀ elevations : List ℚ, elevations.length ≤ 5 →
      smoothedElevations elevations = elevations) ∧
    (∀ elevations : List ℚ, 5 < elevations.length →
      smoothedElevations elevations = kalmanSmoothElevation elevations) := by
  refine ⟨?_, ?_, ?_, ?_, ?_, ?_⟩
  · intro elevs
    cases elevs with
    | nil => rfl
    | cons e rest => rw [kalmanSmooth_cons]; simp [kalmanPass_length]
  · intro e rest
    rw [kalmanSmooth_cons]
    rfl
  · intro elevs hch
    cases elevs with
    | nil => exact trivial
    | cons e rest =>
      rw [kalmanSmooth_cons]
      exact kalmanPass_chain_lt rest e 1 one_pos hch
  · intro elevs hch
    cases elevs with
    | nil => exact trivial
    | cons e rest =>
      rw [kalmanSmooth_cons]
      exact kalmanPass_chain_gt rest e 1 one_pos hch
  · intro elevs h
    rw [smoothedElevations, if_neg (by omega)]
  · intro elevs h
    rw [smoothedElevations, if_pos h]

/-- Claim C6, witness: the theorem applied to the strictly increasing
series [0, 10, 20, 30] and to the 3-sample copy-through case. -/
theorem C6_smoother_properties_witness :
    List.Chain' (· < ·) (kalmanSmoothElevation [0, 10, 20, 30]) ∧
    smoothedElevations [(1 : ℚ), 2, 3] = [1, 2, 3] :=
  ⟨C6_smoother_properties.2.2.1 [0, 10, 20, 30] (by norm_num [List.Chain']),
   C6_smoother_properties.2.2.2.2.1 [(1 : ℚ), 2, 3] (by norm_num)⟩

end SmootherClaims

section AggregationClaims

open PerfAnalyzer

lemma pyRound_intCast (k : ℤ) : pyRound (k : ℚ) = k := by
  rw [pyRound]
  simp

lemma roundTo_two_intdiv (k : ℤ) : roundTo 2 ((k : ℚ) / 100) = (k : ℚ) / 100 := by
  rw [roundTo]
  have h : (k : ℚ) / 100 * 10 ^ 2 = (k : ℚ) := by ring
  rw [h, pyRound_intCast]
  norm_num

lemma roundOrZero_two_decimals (v : ℚ) (h : ∃ k : ℤ, v = (k : ℚ) / 100) :
    roundOrZero (some v) = v := by
  rcases h with ⟨k, rfl⟩
  rw [roundOrZero]
  split_ifs with h0
  · exact h0.symm
  · exact roundTo_two_intdiv k

lemma roundOrZero_eq_roundTo (v : ℚ) : roundOrZero (some v) = roundTo 2 v := by
  rw [roundOrZero]
  split_ifs with h0
  · rw [h0, roundTo]
    norm_num [pyRound]
  · rfl

lemma aggregate_single_overall (a : ActivityAnalysisResult) (w : ℚ) (hw : w ≠ 0) :
    (aggregatePerformanceProfiles [a] (some [w])).map (fun p => p.overall_gap_min_km) =
      some (roundOrZero (some a.grade_adjusted_pace_min_km)) := by
  have hdd : w / w = 1 := div_self hw
  simp [aggregatePerformanceProfiles, weightedAverage, hdd, hw]

lemma aggregate_pair_gradient (a b : ActivityAnalysisResult) (cat : GradientCategory)
    (va vb : ℚ) (ha : a.pace_by_gradient cat = some va)
    (hb : b.pace_by_gradient cat = some vb) :
    (aggregatePerformanceProfiles [a, b] (some [3, 1])).map
        (fun p => gradientPaceField p cat) =
      some (roundOrZero (some ((3 * va + vb) / 4))) := by
  cases cat <;>
    norm_num [aggregatePerformanceProfiles, weightedAverage, gradientPaceField,
      List.filterMap_cons, ha, hb] <;>
    rw [if_neg (List.cons_ne_nil _ _), show va * (3/4) + vb * (1/4) = (3 * va + vb) / 4 by ring]

/-- Claim C8, counterexample: the two-activity [3,1] aggregation does not
return `(3a+b)/4` exactly — the source applies `round(…, 2)`.  With flat
paces a = 6.10 and b = 6.13 the weighted mean is 6.1075 but the profile
stores 6.11. -/
theorem C8_exact_equality_counterexample :
    (aggregatePerformanceProfiles
      [{ activity_id := "a", total_distance_km := 50,
         grade_adjusted_pace_min_km := 6,
         pace_by_gradient := fun c => if c = GradientCategory.flat then some (61/10) else none,
         fatigue_factor := 1, normalized_pace_profile := none },
       { activity_id := "b", total_distance_km := 40,
         grade_adjusted_pace_min_km := 7,
         pace_by_gradient := fun c => if c = GradientCategory.flat then some (613/100) else none,
         fatigue_factor := 1, normalized_pace_profile := none }] (some [3, 1])).map
        (fun p => gradientPaceField p GradientCategory.flat) = some (611/100) ∧
    ((3 * (61/10 : ℚ) + 613/100) / 4) = 2443/400 ∧
    (611/100 : ℚ) ≠ 2443/400 := by
  refine ⟨?_, by norm_num, by norm_num⟩
  have h := aggregate_pair_gradient
    { activity_id := "a", total_distance_km := 50,
      grade_adjusted_pace_min_km := 6,
      pace_by_gradient := fun c => if c = GradientCategory.flat then some (61/10) else none,
      fatigue_factor := 1, normalized_pace_profile := none }
    { activity_id := "b", total_distance_km := 40,
      grade_adjusted_pace_min_km := 7,
      pace_by_gradient := fun c => if c = GradientCategory.flat then some (613/100) else none,
      fatigue_factor := 1, normalized_pace_profile := none }
    GradientCategory.flat (61/10) (613/100) (by simp) (by simp)
  rw [h]
  have hval : ((3 * (61/10 : ℚ) + 613/100) / 4) = 2443/400 := by norm_num
  rw [hval, roundOrZero_eq_roundTo]
  have hfloor : Int.floor ((2443 : ℚ)/400 * 10 ^ 2) = 610 := by
    norm_num
  rw [roundTo, pyRound, hfloor]
  norm_num

/-- Claim C8 (amended): aggregating an empty activity list is an error;
aggregating a single activity with any positive weight reproduces that
activity's stored (2-decimal) grade-adjusted pace exactly; aggregating
two activities with recency weights [3, 1] yields, in every gradient
bucket both activities report with values a and b, the weighted mean
(3a+b)/4 *rounded to 2 decimals*. -/
theorem C8_aggregation_properties :
    (∀ w, aggregatePerformanceProfiles [] w = none) ∧
    (∀ (a : ActivityAnalysisResult) (w : ℚ), 0 < w →
      (∃ k : ℤ, a.grade_adjusted_pace_min_km = (k : ℚ) / 100) →
      (aggregatePerformanceProfiles [a] (some [w])).map (fun p => p.overall_gap_min_km) =
        some a.grade_adjusted_pace_min_km) ∧
    (∀ (a b : ActivityAnalysisResult) (cat : GradientCategory) (va vb : ℚ),
      a.pace_by_gradient cat = some va → b.pace_by_gradient cat = some vb →
      (aggregatePerformanceProfiles [a, b] (some [3, 1])).map
          (fun p => gradientPaceField p cat) =
        some (roundTo 2 ((3 * va + vb) / 4))) := by
  refine ⟨fun w => rfl, ?_, ?_⟩
  · intro a w hw hk
    rw [aggregate_single_overall a w (ne_of_gt hw)]
    rw [roundOrZero_two_decimals _ hk]
  · intro a b cat va vb ha hb
    rw [aggregate_pair_gradient a b cat va vb ha hb, roundOrZero_eq_roundTo]

/-- Claim C8, witness: a single activity with stored pace 6.10 and weight
2 reproduces 6.10; two activities with flat paces 6 and 7 and weights
[3, 1] give round₂(25/4) = 6.25. -/
theorem C8_aggregation_properties_witness :
    (aggregatePerformanceProfiles
      [{ activity_id := "w1", total_distance_km := 42,
         grade_adjusted_pace_min_km := 61/10,
         pace_by_gradient := fun _ => none,
         fatigue_factor := 1, normalized_pace_profile := none }] (some [2])).map
        (fun p => p.overall_gap_min_km) = some (61/10) ∧
    (aggregatePerformanceProfiles
      [{ activity_id := "w2", total_distance_km := 42,
         grade_adjusted_pace_min_km := 6,
         pace_by_gradient := fun c => if c = GradientCategory.flat then some 6 else none,
         fatigue_factor := 1, normalized_pace_profile := none },
       { activity_id := "w3", total_distance_km := 30,
         grade_adjusted_pace_min_km := 7,
         pace_by_gradient := fun c => if c = GradientCategory.flat then some 7 else none,
         fatigue_factor := 1, normalized_pace_profile := none }] (some [3, 1])).map
        (fun p => gradientPaceField p GradientCategory.flat) =
      some (roundTo 2 ((3 * 6 + 7) / 4)) := by
  constructor
  · exact C8_aggregation_properties.2.1 _ 2 (by norm_num) ⟨610, by norm_num⟩
  · exact C8_aggregation_properties.2.2 _ _ GradientCategory.flat 6 7 (by simp) (by simp)

end AggregationClaims

section FixedSegmentClaims

open PerfAnalyzer

lemma segLoopF_eq_filter (pts : List Pt) :
    ∀ (fuel i cs : ℕ),
      segLoopF pts fuel i cs =
        ((closedLoopF pts fuel i cs).filter (keepSeg pts)).map
          (fun p => mkSegmentMetrics pts p.1 p.2) := by
  intro fuel
  induction fuel with
  | zero => intro i cs; rfl
  | succ fuel ih =>
    intro i cs
    rw [segLoopF, closedLoopF]
    by_cases hi : i < pts.length
    · rw [if_pos hi, if_pos hi]
      by_cases hclose :
          1000 ≤ (pts.getD i dfltPt).distance_m - (pts.getD cs dfltPt).distance_m ∨
            i = pts.length - 1
      · rw [if_pos hclose, if_pos hclose]
        by_cases hdrop : segTimeSeconds pts cs i ≤ 0 ∨ segDistKm pts cs i ≤ 0
        · rw [if_pos hdrop]
          have hkeep : keepSeg pts (cs, i) = false := by
            rw [keepSeg]
            simp only [decide_eq_false_iff_not]
            rintro ⟨ht, hd⟩
            rcases hdrop with h | h
            · exact absurd ht (not_lt.mpr h)
            · exact absurd hd (not_lt.mpr h)
          rw [List.filter_cons, hkeep]
          simp only [Bool.false_eq_true, if_false]
          exact ih (i + 1) i
        · rw [if_neg hdrop]
          have hkeep : keepSeg pts (cs, i) = true := by
            rw [keepSeg]
            simp only [decide_eq_true_eq]
            push_neg at hdrop
            exact ⟨lt_of_not_le (not_le.mpr hdrop.1), lt_of_not_le (not_le.mpr hdrop.2)⟩
          rw [List.filter_cons, hkeep]
          simp only [if_true]
          rw [List.map_cons]
          exact congrArg _ (ih (i + 1) i)
      · rw [if_neg hclose, if_neg hclose]
        exact ih (i + 1) cs
    · rw [if_neg hi, if_neg hi]
      rfl

lemma closedLoopF_spec (pts : List Pt) :
    ∀ (fuel i cs : ℕ), cs < i →
      (∀ j, cs < j → j < i →
        ¬(1000 ≤ (pts.getD j dfltPt).distance_m - (pts.getD cs dfltPt).distance_m ∨
          j = pts.length - 1)) →
      ∀ p ∈ closedLoopF pts fuel i cs,
        p.1 < p.2 ∧ p.2 < pts.length ∧
        (1000 ≤ (pts.getD p.2 dfltPt).distance_m - (pts.getD p.1 dfltPt).distance_m ∨
          p.2 = pts.length - 1) ∧
        (∀ j, p.1 < j → j < p.2 →
          ¬(1000 ≤ (pts.getD j dfltPt).distance_m - (pts.getD p.1 dfltPt).distance_m ∨
            j = pts.length - 1)) := by
  intro fuel
  induction fuel with
  | zero => intro i cs _ _ p hp; simp [closedLoopF] at hp
  | succ fuel ih =>
    intro i cs hcsi hmin p hp
    rw [closedLoopF] at hp
    by_cases hi : i < pts.length
    · rw [if_pos hi] at hp
      by_cases hclose :
          1000 ≤ (pts.getD i dfltPt).distance_m - (pts.getD cs dfltPt).distance_m ∨
            i = pts.length - 1
      · rw [if_pos hclose] at hp
        rcases List.mem_cons.mp hp with rfl | hp
        · exact ⟨hcsi, hi, hclose, hmin⟩
        · exact ih (i + 1) i (Nat.lt_succ_self i) (fun j h1 h2 => by omega) p hp
      · rw [if_neg hclose] at hp
        refine ih (i + 1) cs (Nat.lt_succ_of_lt hcsi) ?_ p hp
        intro j h1 h2
        rcases Nat.lt_succ_iff_lt_or_eq.mp h2 with h2 | rfl
        · exact hmin j h1 h2
        · exact hclose
    · rw [if_neg hi] at hp
      simp at hp

/-- Claim C5: the fixed-segment analyzer closes a segment exactly when
the accumulated distance from the current segment start reaches 1000 m or
the series ends (each closed boundary pair satisfies the closing
condition, and no strictly earlier index in the segment satisfies it),
and the returned metric list consists exactly of the closed segments
whose distance and elapsed time are both positive, in order; in
particular every surviving segment has distance > 0 and time > 0. -/
theorem C5_fixed_segment_closing (pts : List Pt) :
    analyzeSegments pts =
      ((closedSegments pts).filter (keepSeg pts)).map
        (fun p => mkSegmentMetrics pts p.1 p.2) ∧
    (∀ p ∈ closedSegments pts,
      p.1 < p.2 ∧ p.2 < pts.length ∧
      (1000 ≤ (pts.getD p.2 dfltPt).distance_m - (pts.getD p.1 dfltPt).distance_m ∨
        p.2 = pts.length - 1) ∧
      (∀ j, p.1 < j → j < p.2 →
        ¬(1000 ≤ (pts.getD j dfltPt).distance_m - (pts.getD p.1 dfltPt).distance_m ∨
          j = pts.length - 1))) ∧
    (∀ p ∈ (closedSegments pts).filter (keepSeg pts),
      0 < segTimeSeconds pts p.1 p.2 ∧ 0 < segDistKm pts p.1 p.2) := by
  refine ⟨?_, ?_, ?_⟩
  · rw [analyzeSegments, closedSegments]
    by_cases h10 : pts.length < 10
    · rw [if_pos h10, if_pos h10]
      rfl
    · rw [if_neg h10, if_neg h10]
      exact segLoopF_eq_filter pts pts.length 1 0
  · intro p hp
    rw [closedSegments] at hp
    by_cases h10 : pts.length < 10
    · rw [if_pos h10] at hp
      simp at hp
    · rw [if_neg h10] at hp
      exact closedLoopF_spec pts pts.length 1 0 Nat.zero_lt_one
        (fun j h1 h2 => by omega) p hp
  · intro p hp
    have := (List.mem_filter.mp hp).2
    rw [keepSeg] at this
    exact of_decide_eq_true this

end FixedSegmentClaims

/-- Claim C5, witness: on the concrete track the segment closed at index
5 (the first point 1000 m in) is kept with positive distance and time. -/
theorem C5_fixed_segment_closing_witness :
    0 < PerfAnalyzer.segTimeSeconds c5WitnessPts 0 5 ∧
    0 < PerfAnalyzer.segDistKm c5WitnessPts 0 5 :=
  (C5_fixed_segment_closing c5WitnessPts).2.2 (0, 5)
    (by norm_num [PerfAnalyzer.closedSegments, PerfAnalyzer.closedLoopF,
      PerfAnalyzer.keepSeg, PerfAnalyzer.segTimeSeconds, PerfAnalyzer.segDistKm,
      c5WitnessPts, dfltPt, List.filter])

section TerrainClaims

open TerrainAnalyzer

lemma getD_eq_get (l : List Pt) (i : ℕ) (h : i < l.length) :
    l.getD i dfltPt = l.get ⟨i, h⟩ := by
  rw [List.getD_eq_getD_get?, List.get?_eq_get h]
  rfl

lemma ptDist_mono (pts : List Pt)
    (hm : List.Chain' (fun a b : Pt => a.distance_m ≤ b.distance_m) pts) :
    ∀ i j, i ≤ j → j < pts.length → ptDist pts i ≤ ptDist pts j := by
  intro i j hij hj
  rcases eq_or_lt_of_le hij with rfl | hlt
  · exact le_refl _
  · haveI : IsTrans Pt (fun a b : Pt => a.distance_m ≤ b.distance_m) :=
      ⟨fun _ _ _ hab hbc => le_trans hab hbc⟩
    have hp := List.chain'_iff_pairwise.mp hm
    have hi : i < pts.length := lt_trans hlt hj
    have := (List.pairwise_iff_get.mp hp) ⟨i, hi⟩ ⟨j, hj⟩ hlt
    rw [ptDist, ptDist, getD_eq_get pts i hi, getD_eq_get pts j hj]
    exact this

lemma ptDist_nonneg (pts : List Pt) (h0 : ptDist pts 0 = 0)
    (hm : List.Chain' (fun a b : Pt => a.distance_m ≤ b.distance_m) pts) :
    ∀ i, i < pts.length → 0 ≤ ptDist pts i := by
  intro i hi
  rw [← h0]
  exact ptDist_mono pts hm 0 i (Nat.zero_le i) hi

lemma findIdxFrom_some_spec (t : ℚ) :
    ∀ (l : List Pt) (k i : ℕ), findIdxFrom t k l = some i →
      k ≤ i ∧ i - k < l.length ∧ t ≤ (l.getD (i - k) dfltPt).distance_m ∧
      ∀ j, j < i - k → (l.getD j dfltPt).distance_m < t := by
  intro l
  induction l with
  | nil => intro k i h; simp [findIdxFrom] at h
  | cons p rest ih =>
    intro k i h
    rw [findIdxFrom] at h
    by_cases hp : t ≤ p.distance_m
    · rw [if_pos hp] at h
      have hik : i = k := by simpa using h.symm
      subst hik
      refine ⟨le_refl i, by simp, by simpa using hp, ?_⟩
      intro j hj
      omega
    · rw [if_neg hp] at h
      rcases ih (k + 1) i h with ⟨h1, h2, h3, h4⟩
      have hki : k < i := by omega
      have hik : i - k = (i - (k + 1)) + 1 := by omega
      refine ⟨le_of_lt hki, by simp; omega, ?_, ?_⟩
      · rw [hik, List.getD_cons_succ]
        exact h3
      · intro j hj
        cases j with
        | zero => simpa using lt_of_not_le hp
        | succ j2 =>
          rw [List.getD_cons_succ]
          exact h4 j2 (by omega)

lemma findIdxFrom_none_spec (t : ℚ) :
    ∀ (l : List Pt) (k : ℕ), findIdxFrom t k l = none →
      ∀ j, j < l.length → (l.getD j dfltPt).distance_m < t := by
  intro l
  induction l with
  | nil => intro k _ j hj; simp at hj
  | cons p rest ih =>
    intro k h j hj
    rw [findIdxFrom] at h
    by_cases hp : t ≤ p.distance_m
    · rw [if_pos hp] at h; exact absurd h (by simp)
    · rw [if_neg hp] at h
      cases j with
      | zero => simpa using lt_of_not_le hp
      | succ j2 =>
        rw [List.getD_cons_succ]
        exact ih (k + 1) h j2 (by simpa using hj)

lemma find_some_spec (pts : List Pt) (t : ℚ) (i : ℕ)
    (h : findPointAtDistance pts t = some i) :
    i < pts.length ∧
    ((t ≤ ptDist pts i ∧ ∀ j, j < i → ptDist pts j < t) ∨
     (i = pts.length - 1 ∧ ∀ j, j < pts.length → ptDist pts j < t)) := by
  rw [findPointAtDistance] at h
  cases hf : findIdxFrom t 0 pts with
  | some i2 =>
    rw [hf] at h
    have hi : i2 = i := by simpa using h
    subst hi
    rcases findIdxFrom_some_spec t pts 0 i2 hf with ⟨_, h2, h3, h4⟩
    simp only [Nat.sub_zero] at h2 h3 h4
    exact ⟨h2, Or.inl ⟨h3, h4⟩⟩
  | none =>
    rw [hf] at h
    by_cases hne : pts.isEmpty
    · rw [if_pos hne] at h; exact absurd h (by simp)
    · rw [if_neg hne] at h
      have hi : pts.length - 1 = i := by simpa using h
      have hlen : 0 < pts.length := by
        cases pts with
        | nil => simp at hne
        | cons a l => simp
      subst hi
      refine ⟨by omega, Or.inr ⟨rfl, ?_⟩⟩
      exact findIdxFrom_none_spec t pts 0 hf

lemma find_isSome (pts : List Pt) (t : ℚ) (hne : pts ≠ []) :
    ∃ i, findPointAtDistance pts t = some i := by
  rw [findPointAtDistance]
  cases hf : findIdxFrom t 0 pts with
  | some i => exact ⟨i, rfl⟩
  | none =>
    refine ⟨pts.length - 1, ?_⟩
    rw [if_neg (by simpa using hne)]

lemma find_genuine (pts : List Pt) (t : ℚ) (i : ℕ)
    (h : findPointAtDistance pts t = some i)
    (hatt : ∃ w, w < pts.length ∧ t ≤ ptDist pts w) :
    i < pts.length ∧ t ≤ ptDist pts i ∧ ∀ j, j < i → ptDist pts j < t := by
  rcases find_some_spec pts t i h with ⟨hi, hcase | hcase⟩
  · exact ⟨hi, hcase⟩
  · rcases hatt with ⟨w, hw, hwt⟩
    exact absurd hwt (not_le.mpr (hcase.2 w hw))

lemma find_mono (pts : List Pt) (t t2 : ℚ) (i i2 : ℕ) (htt : t ≤ t2)
    (h : findPointAtDistance pts t = some i)
    (h2 : findPointAtDistance pts t2 = some i2) : i ≤ i2 := by
  rcases find_some_spec pts t i h with ⟨hi, hc | hc⟩
  · rcases find_some_spec pts t2 i2 h2 with ⟨hi2, hc2 | hc2⟩
    · by_contra hlt
      push_neg at hlt
      have := hc.2 i2 hlt
      have := hc2.1
      linarith
    · omega
  · rcases find_some_spec pts t2 i2 h2 with ⟨hi2, hc2 | hc2⟩
    · have := hc.2 i2 hi2
      have := hc2.1
      linarith
    · omega

lemma foldl_max_init_le : ∀ (l : List ℚ) (a : ℚ), a ≤ l.foldl max a := by
  intro l
  induction l with
  | nil => intro a; exact le_refl a
  | cons x l ih =>
    intro a
    calc a ≤ max a x := le_max_left a x
      _ ≤ (l.foldl max (max a x)) := ih (max a x)

lemma mem_le_foldl_max : ∀ (l : List ℚ) (a x : ℚ), x ∈ l → x ≤ l.foldl max a := by
  intro l
  induction l with
  | nil => intro a x hx; simp at hx
  | cons y l ih =>
    intro a x hx
    rcases List.mem_cons.mp hx with rfl | hx
    · calc x ≤ max a x := le_max_right a x
        _ ≤ l.foldl max (max a x) := foldl_max_init_le l (max a x)
    · exact ih (max a y) x hx

lemma maxGapM_nonneg (pts : List Pt) : 0 ≤ maxGapM pts :=
  foldl_max_init_le _ 0

lemma gap_le_maxGapM (pts : List Pt) (i : ℕ) (h : i + 1 < pts.length) :
    ptDist pts (i + 1) - ptDist pts i ≤ maxGapM pts := by
  apply mem_le_foldl_max
  apply List.mem_map.mpr
  exact ⟨i, List.mem_range.mpr (by omega), rfl⟩

lemma idxChain_append : ∀ (l : List RawSeg) (a c : ℕ) (s : RawSeg),
    IdxChain a l c → s.start_idx = c → IdxChain a (l ++ [s]) s.end_idx := by
  intro l
  induction l with
  | nil =>
    intro a c s h hs
    rw [IdxChain] at h
    subst h
    exact ⟨hs, rfl⟩
  | cons x l ih =>
    intro a c s h hs
    rcases h with ⟨hx, hrest⟩
    exact ⟨hx, ih x.end_idx c s hrest hs⟩

lemma idxChain_to_distChain (pts : List Pt) : ∀ (l : List RawSeg) (a b : ℕ),
    IdxChain a l b → DistChain pts (ptDist pts a) l (ptDist pts b) := by
  intro l
  induction l with
  | nil =>
    intro a b h
    rw [IdxChain] at h
    subst h
    rfl
  | cons x l ih =>
    intro a b h
    rcases h with ⟨hx, hrest⟩
    exact ⟨by rw [hx]; rfl, ih x.end_idx b hrest⟩

lemma distChain_append (pts : List Pt) : ∀ (l1 l2 : List RawSeg) (a m b : ℚ),
    DistChain pts a l1 m → DistChain pts m l2 b → DistChain pts a (l1 ++ l2) b := by
  intro l1
  induction l1 with
  | nil =>
    intro l2 a m b h1 h2
    rw [DistChain] at h1
    subst h1
    simpa using h2
  | cons x l1 ih =>
    intro l2 a m b h1 h2
    rcases h1 with ⟨hx, hrest⟩
    exact ⟨hx, ih l2 _ m b hrest h2⟩

lemma calcMetrics_isSome (pts : List Pt) (s e : ℕ) (h1 : s < e) (h2 : e < pts.length)
    (h3 : 0 < ptDist pts e - ptDist pts s) :
    ∃ m, calcSegmentMetrics pts s e = some m ∧ m.start_idx = s ∧ m.end_idx = e ∧
      m.start_distance_m = ptDist pts s ∧ m.end_distance_m = ptDist pts e := by
  simp only [calcSegmentMetrics]
  rw [if_neg (by push_neg; omega)]
  rw [if_neg (not_le.mpr (by simpa [ptDist] using h3))]
  exact ⟨_, rfl, rfl, rfl, rfl, rfl⟩

lemma calcMetrics_none_cases (pts : List Pt) (s e : ℕ)
    (h : calcSegmentMetrics pts s e = none) :
    e ≤ s ∨ pts.length ≤ e ∨ ptDist pts e - ptDist pts s ≤ 0 := by
  simp only [calcSegmentMetrics] at h
  split_ifs at h with hc hd hp
  all_goals first
    | exact Option.noConfusion h
    | exact Or.inr (Or.inr (by simpa [ptDist] using hd))
    | (rcases hc with hc | hc <;>
        first
          | exact Or.inl hc
          | exact Or.inr (Or.inl hc))

lemma calcMetrics_some_fields (pts : List Pt) (s e : ℕ) (m : SegMetrics)
    (h : calcSegmentMetrics pts s e = some m) :
    s < e ∧ e < pts.length ∧ 0 < ptDist pts e - ptDist pts s ∧
    m.start_distance_m = ptDist pts s ∧ m.end_distance_m = ptDist pts e := by
  simp only [calcSegmentMetrics] at h
  split_ifs at h with hc hd hp
  all_goals first
    | exact Option.noConfusion h
    | (push_neg at hc hd
       rw [Option.some.injEq] at h
       subst h
       exact ⟨by omega, by omega, by simpa [ptDist] using hd, rfl, rfl⟩)

lemma find_zero (pts : List Pt) (hne : pts ≠ []) (h0 : ptDist pts 0 = 0) :
    findPointAtDistance pts 0 = some 0 := by
  cases pts with
  | nil => exact absurd rfl hne
  | cons p rest =>
    have hp : p.distance_m = 0 := by simpa [ptDist] using h0
    rw [findPointAtDistance, findIdxFrom, if_pos (by rw [hp])]

lemma detectStep_some_some (pts : List Pt) (total : ℚ)
    (st : Option (ℕ × TerrainType) × List RawSeg) (j si ei : ℕ)
    (hsi : findPointAtDistance pts (200 * (j : ℚ)) = some si)
    (hei : findPointAtDistance pts (min (200 * (j : ℚ) + 200) total) = some ei) :
    detectStep pts total st j =
      (if ei ≤ si then st
       else
        match calcSegmentMetrics pts si ei with
        | none => st
        | some m =>
          match st.1 with
          | none => (some (si, m.terrain_type), st.2)
          | some (cs, ct) =>
            if m.terrain_type ≠ ct then
              (some (si, m.terrain_type),
                st.2 ++ [{ start_idx := cs, end_idx := si, terrain_type := ct }])
            else st) := by
  simp only [detectStep, hsi, hei]

lemma detect_fold_invariant (pts : List Pt)
    (hlen : 10 ≤ pts.length)
    (h0 : ptDist pts 0 = 0)
    (hm : List.Chain' (fun a b : Pt => a.distance_m ≤ b.distance_m) pts)
    (hpos : 0 < lastDistanceM pts) :
    ∀ N : ℕ, 1 ≤ N →
      ∃ cs ct t0,
        ((List.range N).foldl (detectStep pts (lastDistanceM pts)) (none, [])).1 =
          some (cs, ct) ∧
        IdxChain 0 ((List.range N).foldl (detectStep pts (lastDistanceM pts)) (none, [])).2 cs ∧
        cs < pts.length ∧
        SegBounds pts ((List.range N).foldl (detectStep pts (lastDistanceM pts)) (none, [])).2 ∧
        0 ≤ t0 ∧ t0 ≤ 200 * (N : ℚ) ∧ findPointAtDistance pts t0 = some cs := by
  have hne : pts ≠ [] := by
    intro h
    rw [h] at hlen
    simp at hlen
  intro N
  induction N with
  | zero => intro h; omega
  | succ N ih =>
    intro _
    rcases Nat.eq_zero_or_pos N with rfl | hN
    · -- first iteration: j = 0
      have h200 : (200 : ℚ) * ((0 : ℕ) : ℚ) = 0 := by norm_num
      have hsi : findPointAtDistance pts (200 * ((0 : ℕ) : ℚ)) = some 0 := by
        rw [h200]
        exact find_zero pts hne h0
      obtain ⟨ei, hei⟩ :=
        find_isSome pts (min (200 * ((0 : ℕ) : ℚ) + 200) (lastDistanceM pts)) hne
      have hwpos : 0 < min (200 * ((0 : ℕ) : ℚ) + 200) (lastDistanceM pts) := by
        rw [h200]
        simp [hpos]
      have heipos : 0 < ei := by
        rcases find_some_spec pts _ ei hei with ⟨hein, hc | hc⟩
        · by_contra hz
          push_neg at hz
          interval_cases ei
          rw [h0] at hc
          linarith [hc.1]
        · omega
      have hein : ei < pts.length := (find_some_spec pts _ ei hei).1
      have hdpos : 0 < ptDist pts ei - ptDist pts 0 := by
        rw [h0, sub_zero]
        rcases find_some_spec pts _ ei hei with ⟨_, hc | hc⟩
        · linarith [hc.1]
        · rw [hc.1]
          exact hpos
      obtain ⟨m, hmeq, _, _, _, _⟩ := calcMetrics_isSome pts 0 ei heipos hein hdpos
      show ∃ cs ct t0,
        ((List.range 1).foldl (detectStep pts (lastDistanceM pts)) (none, [])).1 =
          some (cs, ct) ∧ _
      have hr1 : List.range 1 = [0] := by decide
      have hfold : (List.range 1).foldl (detectStep pts (lastDistanceM pts)) (none, []) =
          detectStep pts (lastDistanceM pts) (none, []) 0 := by
        rw [hr1, List.foldl_cons, List.foldl_nil]
      rw [hfold, detectStep_some_some pts (lastDistanceM pts) (none, []) 0 0 ei hsi hei,
        if_neg (by omega), hmeq]
      refine ⟨0, m.terrain_type, 0, rfl, by rw [IdxChain], by omega, ?_, le_refl 0,
        by norm_num, by rw [h200] at hsi; exact hsi⟩
      intro s hs
      simp at hs
    · -- subsequent iterations
      rcases ih hN with ⟨cs, ct, t0, h1, h2, h3, h4, h5, h6, h7⟩
      have hrange : List.range (N + 1) = List.range N ++ [N] := List.range_succ N
      rw [hrange, List.foldl_append, List.foldl_cons, List.foldl_nil]
      set st := (List.range N).foldl (detectStep pts (lastDistanceM pts)) (none, []) with hst
      obtain ⟨si, hsi⟩ := find_isSome pts (200 * (N : ℚ)) hne
      obtain ⟨ei, hei⟩ :=
        find_isSome pts (min (200 * (N : ℚ) + 200) (lastDistanceM pts)) hne
      rw [detectStep_some_some pts (lastDistanceM pts) st N si ei hsi hei]
      have hcast : (200 : ℚ) * ((N + 1 : ℕ) : ℚ) = 200 * (N : ℚ) + 200 := by
        push_cast
        ring
      by_cases hle : ei ≤ si
      · rw [if_pos hle]
        exact ⟨cs, ct, t0, h1, h2, h3, h4, h5, by rw [hcast]; linarith, h7⟩
      · rw [if_neg hle]
        cases hcm : calcSegmentMetrics pts si ei with
        | none => exact ⟨cs, ct, t0, h1, h2, h3, h4, h5, by rw [hcast]; linarith, h7⟩
        | some m =>
          simp only [h1]
          by_cases htt : m.terrain_type ≠ ct
          · rw [if_pos htt]
            have hsin : si < pts.length := (find_some_spec pts _ si hsi).1
            have ht0N : t0 ≤ 200 * (N : ℚ) := h6
            have hcssi : cs ≤ si := find_mono pts t0 (200 * (N : ℚ)) cs si ht0N h7 hsi
            refine ⟨si, m.terrain_type, 200 * (N : ℚ), rfl, ?_, hsin, ?_, by positivity,
              by rw [hcast]; linarith, hsi⟩
            · exact idxChain_append st.2 0 cs
                { start_idx := cs, end_idx := si, terrain_type := ct } h2 rfl
            · intro s hs
              rcases List.mem_append.mp hs with hs | hs
              · exact h4 s hs
              · have hseq : s = { start_idx := cs, end_idx := si, terrain_type := ct } := by
                  simpa using hs
                rw [hseq]
                exact ⟨hcssi, hsin⟩
          · rw [if_neg htt]
            exact ⟨cs, ct, t0, h1, h2, h3, h4, h5, by rw [hcast]; linarith, h7⟩

lemma detect_spec (pts : List Pt)
    (hlen : 10 ≤ pts.length)
    (h0 : ptDist pts 0 = 0)
    (hm : List.Chain' (fun a b : Pt => a.distance_m ≤ b.distance_m) pts)
    (hpos : 0 < lastDistanceM pts) :
    detectTerrainChanges pts ≠ [] ∧
    IdxChain 0 (detectTerrainChanges pts) (pts.length - 1) ∧
    SegBounds pts (detectTerrainChanges pts) := by
  have hN1 : 1 ≤ Int.toNat (Int.ceil (lastDistanceM pts / 200)) := by
    have : (0 : ℚ) < lastDistanceM pts / 200 := by positivity
    have hc := Int.ceil_pos.mpr this
    omega
  rcases detect_fold_invariant pts hlen h0 hm hpos
      (Int.toNat (Int.ceil (lastDistanceM pts / 200))) hN1 with
    ⟨cs, ct, t0, h1, h2, h3, h4, _, _, _⟩
  have hdet : detectTerrainChanges pts =
      (if cs < pts.length - 1 then
        ((List.range (Int.toNat (Int.ceil (lastDistanceM pts / 200)))).foldl
          (detectStep pts (lastDistanceM pts)) (none, [])).2 ++
          [{ start_idx := cs, end_idx := pts.length - 1, terrain_type := ct }]
      else
        ((List.range (Int.toNat (Int.ceil (lastDistanceM pts / 200)))).foldl
          (detectStep pts (lastDistanceM pts)) (none, [])).2) := by
    rw [detectTerrainChanges, if_neg (by omega)]
    simp only [h1]
  rw [hdet]
  by_cases hcs : cs < pts.length - 1
  · rw [if_pos hcs]
    refine ⟨by simp, ?_, ?_⟩
    · exact idxChain_append _ 0 cs
        { start_idx := cs, end_idx := pts.length - 1, terrain_type := ct } h2 rfl
    · intro s hs
      rcases List.mem_append.mp hs with hs | hs
      · exact h4 s hs
      · have hseq : s = { start_idx := cs, end_idx := pts.length - 1, terrain_type := ct } := by
          simpa using hs
        rw [hseq]
        exact ⟨show cs ≤ pts.length - 1 by omega,
               show pts.length - 1 < pts.length by omega⟩
  · rw [if_neg hcs]
    have hcseq : cs = pts.length - 1 := by omega
    subst hcseq
    refine ⟨?_, h2, h4⟩
    intro hnil
    rw [hnil, IdxChain] at h2
    omega

lemma segLengthKm_eq (pts : List Pt) (s : RawSeg) :
    segLengthKm pts s = (ptDist pts s.end_idx - ptDist pts s.start_idx) / 1000 := rfl

lemma updateLastEnd_chain : ∀ (l : List RawSeg) (a m e : ℕ),
    l ≠ [] → IdxChain a l m → IdxChain a (updateLastEnd l e) e := by
  intro l
  induction l with
  | nil => intro a m e hne _; exact absurd rfl hne
  | cons s rest ih =>
    intro a m e _ h
    rcases h with ⟨hs, hrest⟩
    cases rest with
    | nil => exact ⟨hs, rfl⟩
    | cons s2 rest2 =>
      exact ⟨hs, ih s.end_idx m e (by simp) hrest⟩

lemma updateLastEnd_bounds (pts : List Pt) : ∀ (l : List RawSeg) (a m e : ℕ),
    IdxChain a l m → SegBounds pts l → m ≤ e → e < pts.length →
    SegBounds pts (updateLastEnd l e) := by
  intro l
  induction l with
  | nil => intro a m e _ _ _ _ s hs; simp [updateLastEnd] at hs
  | cons s rest ih =>
    intro a m e hch hb hme he
    rcases hch with ⟨_, hrest⟩
    cases rest with
    | nil =>
      intro x hx
      rw [updateLastEnd] at hx
      have hxe : x = { s with end_idx := e } := by simpa using hx
      subst hxe
      have hs := hb s (by simp)
      rw [IdxChain] at hrest
      exact ⟨by simp; omega, by simpa using he⟩
    | cons s2 rest2 =>
      intro x hx
      rw [updateLastEnd] at hx
      rcases List.mem_cons.mp hx with rfl | hx
      · exact hb x (by simp)
      · exact ih s.end_idx m e hrest (fun y hy => hb y (by simp [hy])) hme he x hx

lemma updateLastEnd_minLen (pts : List Pt)
    (hm : List.Chain' (fun a b : Pt => a.distance_m ≤ b.distance_m) pts) :
    ∀ (l : List RawSeg) (a m e : ℕ),
    IdxChain a l m → m ≤ e → e < pts.length →
    (∀ s ∈ l, 3/10 ≤ segLengthKm pts s) →
    ∀ s ∈ updateLastEnd l e, 3/10 ≤ segLengthKm pts s := by
  intro l
  induction l with
  | nil => intro a m e _ _ _ _ s hs; simp [updateLastEnd] at hs
  | cons s rest ih =>
    intro a m e hch hme he hlen
    rcases hch with ⟨_, hrest⟩
    cases rest with
    | nil =>
      intro x hx
      rw [updateLastEnd] at hx
      have hxe : x = { s with end_idx := e } := by simpa using hx
      subst hxe
      have hs := hlen s (by simp)
      rw [IdxChain] at hrest
      have hmono : ptDist pts m ≤ ptDist pts e := ptDist_mono pts hm m e hme he
      rw [segLengthKm_eq] at hs ⊢
      simp only at *
      rw [← hrest] at hmono
      linarith
    | cons s2 rest2 =>
      intro x hx
      rw [updateLastEnd] at hx
      rcases List.mem_cons.mp hx with rfl | hx
      · exact hlen x (by simp)
      · exact ih s.end_idx m e hrest hme he (fun y hy => hlen y (by simp [hy])) x hx

lemma mergeLoop_nil (pts : List Pt) (merged : List RawSeg) :
    mergeLoop pts merged [] = merged := by
  rw [mergeLoop.eq_def]

lemma mergeLoop_short_cons (pts : List Pt) (merged : List RawSeg)
    (current next : RawSeg) (rest2 : List RawSeg)
    (h : segLengthKm pts current < 3/10) :
    mergeLoop pts merged (current :: next :: rest2) =
      mergeLoop pts merged
        ({ start_idx := current.start_idx, end_idx := next.end_idx,
           terrain_type := next.terrain_type } :: rest2) := by
  rw [mergeLoop.eq_def]
  exact if_pos h

lemma mergeLoop_short_last_nil (pts : List Pt) (current : RawSeg)
    (h : segLengthKm pts current < 3/10) :
    mergeLoop pts [] [current] = [current] := by
  rw [mergeLoop.eq_def]
  exact if_pos h

lemma mergeLoop_short_last (pts : List Pt) (m0 : RawSeg) (ms : List RawSeg)
    (current : RawSeg) (h : segLengthKm pts current < 3/10) :
    mergeLoop pts (m0 :: ms) [current] = updateLastEnd (m0 :: ms) current.end_idx := by
  rw [mergeLoop.eq_def]
  exact if_pos h

lemma mergeLoop_long (pts : List Pt) (merged : List RawSeg)
    (current : RawSeg) (rest : List RawSeg)
    (h : ¬ segLengthKm pts current < 3/10) :
    mergeLoop pts merged (current :: rest) = mergeLoop pts (merged ++ [current]) rest := by
  rw [mergeLoop.eq_def]
  exact if_neg h

lemma mergeLoop_spec (pts : List Pt)
    (hm : List.Chain' (fun a b : Pt => a.distance_m ≤ b.distance_m) pts) :
    ∀ (n : ℕ) (cur merged : List RawSeg) (a m b : ℕ),
      cur.length ≤ n →
      IdxChain a merged m → IdxChain m cur b →
      SegBounds pts merged → SegBounds pts cur →
      (∀ s ∈ merged, 3/10 ≤ segLengthKm pts s) →
      IdxChain a (mergeLoop pts merged cur) b ∧
      SegBounds pts (mergeLoop pts merged cur) ∧
      (∀ s ∈ mergeLoop pts merged cur,
        3/10 ≤ segLengthKm pts s ∨ mergeLoop pts merged cur = [s]) := by
  intro n
  induction n with
  | zero =>
    intro cur merged a m b hn hcm hcc hbm hbc hlm
    have hcnil : cur = [] := List.length_eq_zero.mp (Nat.le_zero.mp hn)
    subst hcnil
    rw [IdxChain] at hcc
    subst hcc
    rw [mergeLoop_nil]
    exact ⟨hcm, hbm, fun s hs => Or.inl (hlm s hs)⟩
  | succ n ih =>
    intro cur merged a m b hn hcm hcc hbm hbc hlm
    cases cur with
    | nil =>
      rw [IdxChain] at hcc
      subst hcc
      rw [mergeLoop_nil]
      exact ⟨hcm, hbm, fun s hs => Or.inl (hlm s hs)⟩
    | cons current rest =>
      rcases hcc with ⟨hcs, hrest⟩
      by_cases hshort : segLengthKm pts current < 3/10
      · cases rest with
        | cons next rest2 =>
          rw [mergeLoop_short_cons pts merged current next rest2 hshort]
          rcases hrest with ⟨hns, hrest2⟩
          have h1 := hbc current (by simp)
          have h2 := hbc next (by simp)
          refine ih ({ start_idx := current.start_idx, end_idx := next.end_idx, terrain_type := next.terrain_type } :: rest2) merged a m b (by simp at hn ⊢; omega) hcm ⟨hcs, hrest2⟩ hbm ?_ hlm
          intro x hx
          rcases List.mem_cons.mp hx with rfl | hx
          · exact ⟨show current.start_idx ≤ next.end_idx by omega,
                   show next.end_idx < pts.length from h2.2⟩
          · exact hbc x (by simp [hx])
        | nil =>
          rw [IdxChain] at hrest
          have h1 := hbc current (by simp)
          cases merged with
          | nil =>
            rw [mergeLoop_short_last_nil pts current hshort]
            rw [IdxChain] at hcm
            subst hcm
            refine ⟨⟨hcs, hrest⟩, ?_, ?_⟩
            · intro x hx
              have hxe : x = current := by simpa using hx
              subst hxe
              exact h1
            · intro s hs
              have hse : s = current := by simpa using hs
              subst hse
              exact Or.inr rfl
          | cons m0 ms =>
            rw [mergeLoop_short_last pts m0 ms current hshort]
            have hme : m ≤ current.end_idx := by
              rw [← hcs]; exact h1.1
            refine ⟨?_, ?_, ?_⟩
            · rw [← hrest]
              exact updateLastEnd_chain (m0 :: ms) a m current.end_idx (by simp) hcm
            · exact updateLastEnd_bounds pts (m0 :: ms) a m current.end_idx hcm hbm hme h1.2
            · intro s hs
              exact Or.inl (updateLastEnd_minLen pts hm (m0 :: ms) a m current.end_idx
                hcm hme h1.2 hlm s hs)
      · rw [mergeLoop_long pts merged current rest hshort]
        refine ih rest (merged ++ [current]) a current.end_idx b
          (by simp at hn ⊢; omega)
          (idxChain_append merged a m current hcm hcs) hrest ?_ 
          (fun x hx => hbc x (by simp [hx])) ?_
        · intro x hx
          rcases List.mem_append.mp hx with hx | hx
          · exact hbm x hx
          · have hxe : x = current := by simpa using hx
            subst hxe
            exact hbc x (by simp)
        · intro x hx
          rcases List.mem_append.mp hx with hx | hx
          · exact hlm x hx
          · have hxe : x = current := by simpa using hx
            subst hxe
            exact le_of_not_lt hshort

lemma mergeShortSegments_spec (pts : List Pt)
    (hm : List.Chain' (fun a b : Pt => a.distance_m ≤ b.distance_m) pts)
    (raw : List RawSeg) (a b : ℕ)
    (hch : IdxChain a raw b) (hb : SegBounds pts raw) :
    IdxChain a (mergeShortSegments pts raw) b ∧
    SegBounds pts (mergeShortSegments pts raw) ∧
    (∀ s ∈ mergeShortSegments pts raw,
      3/10 ≤ segLengthKm pts s ∨ mergeShortSegments pts raw = [s]) := by
  rw [mergeShortSegments]
  cases raw with
  | nil =>
    rw [IdxChain] at hch
    subst hch
    simp only [List.isEmpty_nil, if_pos]
    exact ⟨rfl, fun s hs => absurd hs (by simp), fun s hs => absurd hs (by simp)⟩
  | cons r rs =>
    simp only [List.isEmpty_cons, if_neg]
    exact mergeLoop_spec pts hm (r :: rs).length (r :: rs) [] a a b
      (le_refl _) rfl hch (fun s hs => absurd hs (by simp)) hb
      (fun s hs => absurd hs (by simp))

lemma find_overshoot (pts : List Pt) (h0 : ptDist pts 0 = 0) (t : ℚ) (ht : 0 ≤ t)
    (i : ℕ) (hi : i < pts.length) (hfirst : ∀ j, j < i → ptDist pts j < t) :
    ptDist pts i ≤ t + maxGapM pts := by
  cases i with
  | zero =>
    rw [h0]
    have := maxGapM_nonneg pts
    linarith
  | succ i2 =>
    have h1 := hfirst i2 (Nat.lt_succ_self i2)
    have h2 := gap_le_maxGapM pts i2 hi
    linarith

lemma splitBlocks_endpoint (pts : List Pt)
    (hm : List.Chain' (fun a b : Pt => a.distance_m ≤ b.distance_m) pts)
    (end_m : ℚ) (w : ℕ) (hw : w < pts.length) (hwd : ptDist pts w = end_m)
    (csi : ℕ) (cur_m : ℚ)
    (hce : cur_m ≤ end_m) (hguard : end_m ≤ cur_m)
    (hcd : cur_m ≤ ptDist pts csi)
    (hdisj : ptDist pts csi = cur_m ∨ ∀ j, j < csi → ptDist pts j < cur_m) :
    ptDist pts csi = end_m := by
  have heq : cur_m = end_m := le_antisymm hce hguard
  rcases hdisj with h | h
  · rw [h, heq]
  · have hcw : csi ≤ w := by
      by_contra hgt
      push_neg at hgt
      have hlt := h w hgt
      rw [hwd, ← heq] at hlt
      exact absurd hlt (lt_irrefl _)
    have hle := ptDist_mono pts hm csi w hcw hw
    rw [hwd] at hle
    rw [← heq] at hle ⊢
    exact le_antisymm hle hcd

lemma splitBlocks_spec (pts : List Pt)
    (hm : List.Chain' (fun a b : Pt => a.distance_m ≤ b.distance_m) pts)
    (h0 : ptDist pts 0 = 0)
    (tt : TerrainType) (end_m : ℚ)
    (w : ℕ) (hw : w < pts.length) (hwd : ptDist pts w = end_m) :
    ∀ (fuel : ℕ) (csi : ℕ) (cur_m : ℚ),
      Int.ceil ((end_m - cur_m) / 5000) ≤ (fuel : ℤ) →
      0 ≤ cur_m → cur_m ≤ end_m →
      csi < pts.length →
      cur_m ≤ ptDist pts csi →
      (ptDist pts csi = cur_m ∨ ∀ j, j < csi → ptDist pts j < cur_m) →
      DistChain pts (ptDist pts csi) (splitBlocks pts tt end_m fuel csi cur_m) end_m ∧
      ∀ s ∈ splitBlocks pts tt end_m fuel csi cur_m,
        s.start_idx < pts.length ∧ s.end_idx < pts.length ∧
        ptDist pts s.start_idx ≤ ptDist pts s.end_idx ∧
        s.terrain_type = tt ∧
        segLengthKm pts s ≤ 5 + maxGapM pts / 1000 := by
  intro fuel
  induction fuel with
  | zero =>
    intro csi cur_m hf h0c hce hcsi hcd hdisj
    have hle : end_m ≤ cur_m := by
      by_contra hlt
      push_neg at hlt
      have hp : (0:ℚ) < (end_m - cur_m) / 5000 := div_pos (by linarith) (by norm_num)
      have := Int.ceil_pos.mpr hp
      omega
    have hpeq := splitBlocks_endpoint pts hm end_m w hw hwd csi cur_m hce hle hcd hdisj
    exact ⟨hpeq, fun s hs => absurd hs (by simp [splitBlocks])⟩
  | succ fuel ih =>
    intro csi cur_m hf h0c hce hcsi hcd hdisj
    by_cases hguard : cur_m < end_m
    · have hne : pts ≠ [] := by
        intro h
        rw [h] at hcsi
        simp at hcsi
      rcases find_isSome pts (min (cur_m + 5 * 1000) end_m) hne with ⟨bei, hfind⟩
      have hsb : splitBlocks pts tt end_m (fuel + 1) csi cur_m =
          { start_idx := csi, end_idx := bei, terrain_type := tt } ::
            splitBlocks pts tt end_m fuel bei (min (cur_m + 5 * 1000) end_m) := by
        rw [splitBlocks, if_pos hguard]
        simp only [hfind]
      have hblo : cur_m < min (cur_m + 5 * 1000) end_m := lt_min (by linarith) hguard
      have hbhi : min (cur_m + 5 * 1000) end_m ≤ end_m := min_le_right _ _
      rcases find_genuine pts (min (cur_m + 5 * 1000) end_m) bei hfind
          ⟨w, hw, by rw [hwd]; exact hbhi⟩ with ⟨hbei, hbed, hbfirst⟩
      have hf2 : Int.ceil ((end_m - min (cur_m + 5 * 1000) end_m) / 5000) ≤ (fuel : ℤ) := by
        rcases le_or_lt (cur_m + 5 * 1000) end_m with hc | hc
        · rw [min_eq_left hc]
          have harith : (end_m - (cur_m + 5 * 1000)) / 5000 = (end_m - cur_m) / 5000 - 1 := by
            ring
          rw [harith, Int.ceil_sub_one]
          push_cast at hf ⊢
          omega
        · rw [min_eq_right (le_of_lt hc)]
          rw [sub_self]
          norm_num
      have h0c2 : 0 ≤ min (cur_m + 5 * 1000) end_m := le_trans h0c (le_of_lt hblo)
      rcases ih bei (min (cur_m + 5 * 1000) end_m) hf2 h0c2 hbhi hbei hbed
        (Or.inr hbfirst) with ⟨ihc, ihs⟩
      rw [hsb]
      constructor
      · exact ⟨rfl, ihc⟩
      · intro s hs
        rcases List.mem_cons.mp hs with rfl | hs
        · have hcb : ptDist pts csi ≤ ptDist pts bei := by
            rcases hdisj with h | h
            · rw [h]; linarith
            · have hle : csi ≤ bei := by
                by_contra hgt
                push_neg at hgt
                have := h bei hgt
                linarith
              exact ptDist_mono pts hm csi bei hle hbei
          have hover : ptDist pts bei ≤ min (cur_m + 5 * 1000) end_m + maxGapM pts :=
            find_overshoot pts h0 (min (cur_m + 5 * 1000) end_m) h0c2 bei hbei hbfirst
          refine ⟨hcsi, hbei, hcb, rfl, ?_⟩
          rw [segLengthKm_eq]
          have hmin : min (cur_m + 5 * 1000) end_m ≤ cur_m + 5 * 1000 := min_le_left _ _
          have hgap := maxGapM_nonneg pts
          show (ptDist pts bei - ptDist pts csi) / 1000 ≤ 5 + maxGapM pts / 1000
          have hd : ptDist pts bei - ptDist pts csi ≤ 5000 + maxGapM pts := by linarith
          linarith
        · exact ihs s hs
    · push_neg at hguard
      have hpeq := splitBlocks_endpoint pts hm end_m w hw hwd csi cur_m hce hguard hcd hdisj
      have hsb : splitBlocks pts tt end_m (fuel + 1) csi cur_m = [] := by
        rw [splitBlocks, if_neg (not_lt.mpr hguard)]
      rw [hsb]
      exact ⟨hpeq, fun s hs => absurd hs (by simp)⟩

lemma splitBlocks_tt (pts : List Pt) (tt : TerrainType) (end_m : ℚ) :
    ∀ (fuel csi : ℕ) (cur_m : ℚ),
      ∀ s ∈ splitBlocks pts tt end_m fuel csi cur_m, s.terrain_type = tt := by
  intro fuel
  induction fuel with
  | zero => intro csi cur_m s hs; simp [splitBlocks] at hs
  | succ fuel ih =>
    intro csi cur_m s hs
    by_cases hguard : cur_m < end_m
    · cases hfind : findPointAtDistance pts (min (cur_m + 5 * 1000) end_m) with
      | none =>
        have hsb : splitBlocks pts tt end_m (fuel + 1) csi cur_m = [] := by
          rw [splitBlocks, if_pos hguard]
          simp only [hfind]
        rw [hsb] at hs
        simp at hs
      | some bei =>
        have hsb : splitBlocks pts tt end_m (fuel + 1) csi cur_m =
            { start_idx := csi, end_idx := bei, terrain_type := tt } ::
              splitBlocks pts tt end_m fuel bei (min (cur_m + 5 * 1000) end_m) := by
          rw [splitBlocks, if_pos hguard]
          simp only [hfind]
        rw [hsb] at hs
        rcases List.mem_cons.mp hs with rfl | hs
        · rfl
        · exact ih bei (min (cur_m + 5 * 1000) end_m) s hs
    · have hsb : splitBlocks pts tt end_m (fuel + 1) csi cur_m = [] := by
        rw [splitBlocks, if_neg hguard]
      rw [hsb] at hs
      simp at hs

lemma filter_bind_eq {α β : Type} (p : β → Bool) (f : α → List β) :
    ∀ l : List α, (l.bind f).filter p = l.bind fun a => (f a).filter p := by
  intro l
  induction l with
  | nil => rfl
  | cons a l ih =>
    show (f a ++ l.bind f).filter p = (f a).filter p ++ l.bind fun a => (f a).filter p
    rw [List.filter_append, ih]

lemma split_distChain (pts : List Pt)
    (hm : List.Chain' (fun a b : Pt => a.distance_m ≤ b.distance_m) pts)
    (h0 : ptDist pts 0 = 0) :
    ∀ (l : List RawSeg) (a b : ℚ),
      DistChain pts a l b → SegBounds pts l →
      DistChain pts a (splitLongFlatDescentSegments pts l) b ∧
      ∀ s ∈ splitLongFlatDescentSegments pts l,
        s.start_idx < pts.length ∧ s.end_idx < pts.length ∧
        ptDist pts s.start_idx ≤ ptDist pts s.end_idx := by
  intro l
  induction l with
  | nil =>
    intro a b hch hb
    exact ⟨hch, fun s hs => absurd hs (by simp [splitLongFlatDescentSegments])⟩
  | cons seg rest ih =>
    intro a b hch hb
    rcases hch with ⟨hstart, hrest⟩
    rcases ih _ b hrest (fun s hs => hb s (by simp [hs])) with ⟨ihc, ihs⟩
    have hbseg := hb seg (by simp)
    have hsegok : ptDist pts seg.start_idx ≤ ptDist pts seg.end_idx :=
      ptDist_mono pts hm seg.start_idx seg.end_idx hbseg.1 hbseg.2
    have hsplit : splitLongFlatDescentSegments pts (seg :: rest) =
        (if seg.terrain_type = TerrainType.climb ∨
            ((pts.getD seg.end_idx dfltPt).distance_m -
              (pts.getD seg.start_idx dfltPt).distance_m) / 1000 ≤ 5 then [seg]
         else
          splitBlocks pts seg.terrain_type (pts.getD seg.end_idx dfltPt).distance_m
            (Int.toNat (Int.ceil (((pts.getD seg.end_idx dfltPt).distance_m -
              (pts.getD seg.start_idx dfltPt).distance_m) / 5000)) + 1)
            seg.start_idx (pts.getD seg.start_idx dfltPt).distance_m) ++
          splitLongFlatDescentSegments pts rest := rfl
    rw [hsplit]
    by_cases hpass : seg.terrain_type = TerrainType.climb ∨
        ((pts.getD seg.end_idx dfltPt).distance_m -
          (pts.getD seg.start_idx dfltPt).distance_m) / 1000 ≤ 5
    · rw [if_pos hpass]
      constructor
      · exact ⟨hstart, ihc⟩
      · intro s hs
        rcases List.mem_cons.mp hs with rfl | hs
        · exact ⟨by omega, hbseg.2, hsegok⟩
        · exact ihs s hs
    · rw [if_neg hpass]
      push_neg at hpass
      have hlong : 5 < (ptDist pts seg.end_idx - ptDist pts seg.start_idx) / 1000 :=
        hpass.2
      have hlt : ptDist pts seg.start_idx < ptDist pts seg.end_idx := by
        by_contra hc
        push_neg at hc
        have hnp : (ptDist pts seg.end_idx - ptDist pts seg.start_idx) / 1000 ≤ 0 :=
          div_nonpos_of_nonpos_of_nonneg (by linarith) (by norm_num)
        linarith
      have hfc : Int.ceil ((ptDist pts seg.end_idx - ptDist pts seg.start_idx) / 5000) ≤
          ((Int.toNat (Int.ceil ((ptDist pts seg.end_idx - ptDist pts seg.start_idx) / 5000))
            + 1 : ℕ) : ℤ) := by
        push_cast
        have := Int.self_le_toNat
          (Int.ceil ((ptDist pts seg.end_idx - ptDist pts seg.start_idx) / 5000))
        omega
      have h0s : 0 ≤ ptDist pts seg.start_idx :=
        ptDist_nonneg pts h0 hm seg.start_idx (by omega)
      rcases splitBlocks_spec pts hm h0 seg.terrain_type (ptDist pts seg.end_idx)
          seg.end_idx hbseg.2 rfl
          (Int.toNat (Int.ceil ((ptDist pts seg.end_idx - ptDist pts seg.start_idx) / 5000)) + 1)
          seg.start_idx (ptDist pts seg.start_idx)
          hfc h0s (le_of_lt hlt) (by omega) (le_refl _) (Or.inl rfl) with ⟨hsc, hss⟩
      constructor
      · apply distChain_append pts _ _ a (ptDist pts seg.end_idx) b _ ihc
        rw [← hstart]
        exact hsc
      · intro s hs
        rcases List.mem_append.mp hs with hs | hs
        · rcases hss s hs with ⟨p1, p2, p3, _, _⟩
          exact ⟨p1, p2, p3⟩
        · exact ihs s hs

lemma split_filter_climb (pts : List Pt) : ∀ l : List RawSeg,
    (splitLongFlatDescentSegments pts l).filter
        (fun s => s.terrain_type == TerrainType.climb) =
      l.filter (fun s => s.terrain_type == TerrainType.climb) := by
  intro l
  induction l with
  | nil => rfl
  | cons seg rest ih =>
    have hsplit : splitLongFlatDescentSegments pts (seg :: rest) =
        (if seg.terrain_type = TerrainType.climb ∨
            ((pts.getD seg.end_idx dfltPt).distance_m -
              (pts.getD seg.start_idx dfltPt).distance_m) / 1000 ≤ 5 then [seg]
         else
          splitBlocks pts seg.terrain_type (pts.getD seg.end_idx dfltPt).distance_m
            (Int.toNat (Int.ceil (((pts.getD seg.end_idx dfltPt).distance_m -
              (pts.getD seg.start_idx dfltPt).distance_m) / 5000)) + 1)
            seg.start_idx (pts.getD seg.start_idx dfltPt).distance_m) ++
          splitLongFlatDescentSegments pts rest := rfl
    rw [hsplit, List.filter_append, ih, List.filter_cons]
    by_cases hc : seg.terrain_type = TerrainType.climb
    · rw [if_pos (Or.inl hc)]
      have hp : (seg.terrain_type == TerrainType.climb) = true := by
        rw [beq_iff_eq]; exact hc
      rw [hp]
      simp [List.filter_cons, hp]
    · have hp : (seg.terrain_type == TerrainType.climb) = false := by
        rw [beq_eq_false_iff_ne]; exact hc
      rw [hp]
      by_cases hlen : ((pts.getD seg.end_idx dfltPt).distance_m -
          (pts.getD seg.start_idx dfltPt).distance_m) / 1000 ≤ 5
      · rw [if_pos (Or.inr hlen)]
        simp [List.filter_cons, hp]
      · rw [if_neg (by tauto)]
        have hnil : (splitBlocks pts seg.terrain_type
            (pts.getD seg.end_idx dfltPt).distance_m
            (Int.toNat (Int.ceil (((pts.getD seg.end_idx dfltPt).distance_m -
              (pts.getD seg.start_idx dfltPt).distance_m) / 5000)) + 1)
            seg.start_idx (pts.getD seg.start_idx dfltPt).distance_m).filter
              (fun s => s.terrain_type == TerrainType.climb) = [] := by
          apply List.filter_eq_nil.mpr
          intro x hx
          have hxtt := splitBlocks_tt pts seg.terrain_type _ _ _ _ x hx
          rw [Bool.not_eq_true, beq_eq_false_iff_ne, hxtt]
          exact hc
        rw [hnil]
        rfl

lemma split_length_bound (pts : List Pt)
    (hm : List.Chain' (fun a b : Pt => a.distance_m ≤ b.distance_m) pts)
    (h0 : ptDist pts 0 = 0) :
    ∀ l : List RawSeg, SegBounds pts l →
      ∀ s ∈ splitLongFlatDescentSegments pts l,
        s.terrain_type ≠ TerrainType.climb →
        segLengthKm pts s ≤ 5 + maxGapM pts / 1000 := by
  intro l
  induction l with
  | nil =>
    intro _ s hs _
    simp [splitLongFlatDescentSegments] at hs
  | cons seg rest ih =>
    intro hb s hs hsc
    have hsplit : splitLongFlatDescentSegments pts (seg :: rest) =
        (if seg.terrain_type = TerrainType.climb ∨
            ((pts.getD seg.end_idx dfltPt).distance_m -
              (pts.getD seg.start_idx dfltPt).distance_m) / 1000 ≤ 5 then [seg]
         else
          splitBlocks pts seg.terrain_type (pts.getD seg.end_idx dfltPt).distance_m
            (Int.toNat (Int.ceil (((pts.getD seg.end_idx dfltPt).distance_m -
              (pts.getD seg.start_idx dfltPt).distance_m) / 5000)) + 1)
            seg.start_idx (pts.getD seg.start_idx dfltPt).distance_m) ++
          splitLongFlatDescentSegments pts rest := rfl
    rw [hsplit] at hs
    rcases List.mem_append.mp hs with hs | hs
    · have hbseg := hb seg (by simp)
      by_cases hpass : seg.terrain_type = TerrainType.climb ∨
          ((pts.getD seg.end_idx dfltPt).distance_m -
            (pts.getD seg.start_idx dfltPt).distance_m) / 1000 ≤ 5
      · rw [if_pos hpass] at hs
        have hse : s = seg := by simpa using hs
        subst hse
        rcases hpass with hcl | hlen
        · exact absurd hcl hsc
        · rw [segLengthKm_eq]
          have hg := maxGapM_nonneg pts
          have : 0 ≤ maxGapM pts / 1000 := by positivity
          calc (ptDist pts s.end_idx - ptDist pts s.start_idx) / 1000 ≤ 5 := hlen
            _ ≤ 5 + maxGapM pts / 1000 := by linarith
      · rw [if_neg hpass] at hs
        push_neg at hpass
        have hlong : 5 < (ptDist pts seg.end_idx - ptDist pts seg.start_idx) / 1000 :=
          hpass.2
        have hlt : ptDist pts seg.start_idx < ptDist pts seg.end_idx := by
          by_contra hcon
          push_neg at hcon
          have hnp : (ptDist pts seg.end_idx - ptDist pts seg.start_idx) / 1000 ≤ 0 :=
            div_nonpos_of_nonpos_of_nonneg (by linarith) (by norm_num)
          linarith
        have hfc : Int.ceil ((ptDist pts seg.end_idx - ptDist pts seg.start_idx) / 5000) ≤
            ((Int.toNat (Int.ceil ((ptDist pts seg.end_idx - ptDist pts seg.start_idx) / 5000))
              + 1 : ℕ) : ℤ) := by
          push_cast
          have := Int.self_le_toNat
            (Int.ceil ((ptDist pts seg.end_idx - ptDist pts seg.start_idx) / 5000))
          omega
        have h0s : 0 ≤ ptDist pts seg.start_idx :=
          ptDist_nonneg pts h0 hm seg.start_idx (by omega)
        rcases splitBlocks_spec pts hm h0 seg.terrain_type (ptDist pts seg.end_idx)
            seg.end_idx hbseg.2 rfl
            (Int.toNat (Int.ceil ((ptDist pts seg.end_idx - ptDist pts seg.start_idx) / 5000)) + 1)
            seg.start_idx (ptDist pts seg.start_idx)
            hfc h0s (le_of_lt hlt) (by omega) (le_refl _) (Or.inl rfl) with ⟨_, hss⟩
        exact (hss s hs).2.2.2.2
    · exact ih (fun x hx => hb x (by simp [hx])) s hs hsc

lemma pyRound_lb (x : ℚ) : Int.floor x ≤ pyRound x := by
  simp only [pyRound]
  split_ifs <;> omega

lemma pyRound_ub (x : ℚ) : pyRound x ≤ Int.floor x + 1 := by
  simp only [pyRound]
  split_ifs <;> omega

lemma pyRound_mono (x y : ℚ) (h : x ≤ y) : pyRound x ≤ pyRound y := by
  have hf : Int.floor x ≤ Int.floor y := Int.floor_le_floor h
  rcases lt_or_eq_of_le hf with hlt | hfe
  · calc pyRound x ≤ Int.floor x + 1 := pyRound_ub x
      _ ≤ Int.floor y := by omega
      _ ≤ pyRound y := pyRound_lb y
  · simp only [pyRound]
    rw [← hfe]
    split_ifs <;> first | omega | linarith

lemma roundTo_mono (n : ℕ) (x y : ℚ) (h : x ≤ y) : roundTo n x ≤ roundTo n y := by
  rw [roundTo, roundTo]
  have hp : (0:ℚ) < 10 ^ n := by positivity
  apply div_le_div_of_nonneg_right ?_ (le_of_lt hp)
  exact_mod_cast pyRound_mono (x * 10 ^ n) (y * 10 ^ n)
    (mul_le_mul_of_nonneg_right h (le_of_lt hp))

lemma roundTo_zero (n : ℕ) : roundTo n 0 = 0 := by
  norm_num [roundTo, pyRound]

lemma buildChain_aux (pts : List Pt)
    (hm : List.Chain' (fun a b : Pt => a.distance_m ≤ b.distance_m) pts) :
    ∀ (l : List RawSeg) (k : ℕ) (a b : ℚ),
      DistChain pts a l b →
      (∀ s ∈ l, s.start_idx < pts.length ∧ s.end_idx < pts.length ∧
        ptDist pts s.start_idx ≤ ptDist pts s.end_idx) →
      RoundChain (roundTo 2 (a / 1000))
        ((List.enumFrom k l).filterMap fun is =>
          (calcSegmentMetrics pts is.2.start_idx is.2.end_idx).map fun m =>
            mkTerrainSegment is.1 is.2.terrain_type m)
        (roundTo 2 (b / 1000)) := by
  intro l
  induction l with
  | nil =>
    intro k a b hch hok
    rw [DistChain] at hch
    subst hch
    rfl
  | cons seg rest ih =>
    intro k a b hch hok
    rcases hch with ⟨hstart, hrest⟩
    have hstart2 : ptDist pts seg.start_idx = a := hstart
    have hokseg := hok seg (by simp)
    have hokrest : ∀ s ∈ rest, s.start_idx < pts.length ∧ s.end_idx < pts.length ∧
        ptDist pts s.start_idx ≤ ptDist pts s.end_idx :=
      fun s hs => hok s (by simp [hs])
    have h2 := ih (k + 1) (ptDist pts seg.end_idx) b hrest hokrest
    cases hmet : calcSegmentMetrics pts seg.start_idx seg.end_idx with
    | none =>
      have hcases := calcMetrics_none_cases pts seg.start_idx seg.end_idx hmet
      have heq : ptDist pts seg.start_idx = ptDist pts seg.end_idx := by
        rcases hcases with hc | hc | hc
        · exact le_antisymm hokseg.2.2 (ptDist_mono pts hm seg.end_idx seg.start_idx hc hokseg.1)
        · exact absurd hokseg.2.1 (not_lt.mpr hc)
        · exact le_antisymm hokseg.2.2 (by linarith)
      simp only [List.enumFrom_cons, List.filterMap_cons, hmet, Option.map_none']
      rw [← heq, hstart2] at h2
      exact h2
    | some m =>
      rcases calcMetrics_some_fields pts seg.start_idx seg.end_idx m hmet with
        ⟨_, _, _, hsd, hed⟩
      simp only [List.enumFrom_cons, List.filterMap_cons, hmet, Option.map_some']
      refine ⟨?_, ?_, ?_⟩
      · show roundTo 2 (m.start_distance_m / 1000) = roundTo 2 (a / 1000)
        rw [hsd, hstart2]
      · show roundTo 2 (m.start_distance_m / 1000) ≤ roundTo 2 (m.end_distance_m / 1000)
        apply roundTo_mono
        rw [hsd, hed]
        exact div_le_div_of_nonneg_right hokseg.2.2 (by norm_num)
      · show RoundChain (roundTo 2 (m.end_distance_m / 1000)) _ (roundTo 2 (b / 1000))
        rw [hed]
        exact h2

lemma distChain_degenerate (pts : List Pt) : ∀ (l : List RawSeg) (a b : ℚ),
    DistChain pts a l b →
    (∀ s ∈ l, ptDist pts s.start_idx = ptDist pts s.end_idx) → a = b := by
  intro l
  induction l with
  | nil =>
    intro a b hch _
    exact hch
  | cons seg rest ih =>
    intro a b hch hdeg
    rcases hch with ⟨hstart, hrest⟩
    have h1 : ptDist pts seg.start_idx = a := hstart
    have h2 := hdeg seg (by simp)
    rw [← h1, h2]
    exact ih _ b hrest (fun s hs => hdeg s (by simp [hs]))

lemma buildSegments_aux_ne_nil (pts : List Pt) :
    ∀ (l : List RawSeg) (k : ℕ),
      (∃ s ∈ l, (calcSegmentMetrics pts s.start_idx s.end_idx).isSome) →
      (List.enumFrom k l).filterMap (fun is =>
        (calcSegmentMetrics pts is.2.start_idx is.2.end_idx).map fun m =>
          mkTerrainSegment is.1 is.2.terrain_type m) ≠ [] := by
  intro l
  induction l with
  | nil =>
    intro k h
    rcases h with ⟨s, hs, _⟩
    exact absurd hs (by simp)
  | cons seg rest ih =>
    intro k h
    cases hmet : calcSegmentMetrics pts seg.start_idx seg.end_idx with
    | none =>
      simp only [List.enumFrom_cons, List.filterMap_cons, hmet, Option.map_none']
      apply ih (k + 1)
      rcases h with ⟨s, hs, hsome⟩
      rcases List.mem_cons.mp hs with rfl | hs
      · rw [hmet] at hsome
        exact absurd hsome (by simp)
      · exact ⟨s, hs, hsome⟩
    | some m =>
      simp only [List.enumFrom_cons, List.filterMap_cons, hmet, Option.map_some']
      simp

lemma analyze_eq (pts : List Pt) (aid : String) (hlen : 10 ≤ pts.length) :
    analyze pts aid = some
      { activity_id := aid
        total_distance_km := roundTo 2 (lastDistanceM pts / 1000)
        total_elevation_gain_m := roundTo 0
          (((splitLongFlatDescentSegments pts
              (mergeShortSegments pts (detectTerrainChanges pts))).filterMap fun seg =>
            calcSegmentMetrics pts seg.start_idx seg.end_idx).map fun m =>
              if m.elevation_change_m > 0 then m.elevation_change_m else 0).sum
        total_elevation_loss_m := roundTo 0
          (((splitLongFlatDescentSegments pts
              (mergeShortSegments pts (detectTerrainChanges pts))).filterMap fun seg =>
            calcSegmentMetrics pts seg.start_idx seg.end_idx).map fun m =>
              if m.elevation_change_m > 0 then 0 else |m.elevation_change_m|).sum
        total_time_seconds := roundTo 0
          (((splitLongFlatDescentSegments pts
              (mergeShortSegments pts (detectTerrainChanges pts))).filterMap fun seg =>
            calcSegmentMetrics pts seg.start_idx seg.end_idx).map fun m =>
              m.time_seconds).sum
        segments := buildSegments pts (splitLongFlatDescentSegments pts
          (mergeShortSegments pts (detectTerrainChanges pts))) } := by
  rw [analyze, if_neg (not_lt.mpr hlen)]

/-- **C1** (corrected): for an accepted point series (at least 10 points)
whose cumulative distances are nondecreasing, start at 0, and reach a
positive total, `analyze` returns a result whose non-empty segment list
partitions `[0, total_distance_km]` contiguously: the first segment
starts at 0, each segment's end distance is the next one's start
distance, every segment has its start at or before its end, and the last
segment ends at the reported total distance.  (The original claim, over
every accepted series, is refuted by `C1_partition_counterexample`.) -/
theorem C1_partition (pts : List Pt) (aid : String)
    (hlen : 10 ≤ pts.length)
    (h0 : ptDist pts 0 = 0)
    (hm : List.Chain' (fun a b : Pt => a.distance_m ≤ b.distance_m) pts)
    (hpos : 0 < lastDistanceM pts) :
    ∃ r, analyze pts aid = some r ∧ r.segments ≠ [] ∧
      RoundChain 0 r.segments r.total_distance_km := by
  obtain ⟨hraw_ne, hch, hbd⟩ := detect_spec pts hlen h0 hm hpos
  obtain ⟨hch2, hbd2, _⟩ := mergeShortSegments_spec pts hm (detectTerrainChanges pts)
    0 (pts.length - 1) hch hbd
  have hdc : DistChain pts 0 (mergeShortSegments pts (detectTerrainChanges pts))
      (lastDistanceM pts) := by
    have hconv := idxChain_to_distChain pts _ 0 (pts.length - 1) hch2
    rw [h0] at hconv
    exact hconv
  obtain ⟨hdc2, hok⟩ := split_distChain pts hm h0 _ 0 (lastDistanceM pts) hdc hbd2
  have hrc := buildChain_aux pts hm
    (splitLongFlatDescentSegments pts (mergeShortSegments pts (detectTerrainChanges pts)))
    0 0 (lastDistanceM pts) hdc2 hok
  have hex : ∃ s ∈ splitLongFlatDescentSegments pts
      (mergeShortSegments pts (detectTerrainChanges pts)),
      (calcSegmentMetrics pts s.start_idx s.end_idx).isSome := by
    by_contra hno
    push_neg at hno
    have hdeg : ∀ s ∈ splitLongFlatDescentSegments pts
        (mergeShortSegments pts (detectTerrainChanges pts)),
        ptDist pts s.start_idx = ptDist pts s.end_idx := by
      intro s hs
      have hs2 := hok s hs
      have hnone : calcSegmentMetrics pts s.start_idx s.end_idx = none := by
        have hni := hno s hs
        cases hmm : calcSegmentMetrics pts s.start_idx s.end_idx with
        | none => rfl
        | some m =>
          rw [hmm] at hni
          exact absurd (by simp) hni
      rcases calcMetrics_none_cases pts s.start_idx s.end_idx hnone with hc | hc | hc
      · exact le_antisymm hs2.2.2 (ptDist_mono pts hm s.end_idx s.start_idx hc hs2.1)
      · exact absurd hs2.2.1 (not_lt.mpr hc)
      · exact le_antisymm hs2.2.2 (by linarith)
    have hzero := distChain_degenerate pts _ 0 (lastDistanceM pts) hdc2 hdeg
    linarith
  have hne2 := buildSegments_aux_ne_nil pts
    (splitLongFlatDescentSegments pts (mergeShortSegments pts (detectTerrainChanges pts)))
    0 hex
  rw [analyze_eq pts aid hlen]
  refine ⟨_, rfl, ?_, ?_⟩
  · exact hne2
  · show RoundChain 0 (buildSegments pts (splitLongFlatDescentSegments pts
      (mergeShortSegments pts (detectTerrainChanges pts))))
      (roundTo 2 (lastDistanceM pts / 1000))
    have h00 : roundTo 2 ((0:ℚ) / 1000) = 0 := by rw [zero_div, roundTo_zero]
    rw [← h00]
    exact hrc

/-- Claim C1, counterexample: the analyzer accepts the 10-point series
with decreasing distances (only the point count is checked), yet the
result has an empty segment list and a positive total distance — the
returned list does not partition `[0, 0.1]` (there is no first or last
segment at all). -/
theorem C1_partition_counterexample :
    ∃ r, analyze c1CtrPts "activity" = some r ∧ r.segments = [] ∧
      r.total_distance_km = 1/10 ∧ ¬ RoundChain 0 r.segments r.total_distance_km := by
  have hL : lastDistanceM c1CtrPts = 100 := rfl
  have hf0 : findPointAtDistance c1CtrPts (200 * ((0:ℕ):ℚ)) = some 0 := by
    norm_num [findPointAtDistance, findIdxFrom, c1CtrPts]
  have hf100 : findPointAtDistance c1CtrPts (min (200 * ((0:ℕ):ℚ) + 200) 100) = some 0 := by
    norm_num [findPointAtDistance, findIdxFrom, c1CtrPts]
  have hstep : detectStep c1CtrPts 100 (none, []) 0 = (none, []) := by
    rw [detectStep_some_some c1CtrPts 100 (none, []) 0 0 0 hf0 hf100]
    simp
  have hdet : detectTerrainChanges c1CtrPts = [] := by
    simp only [detectTerrainChanges]
    rw [if_neg (by norm_num [c1CtrPts])]
    rw [hL]
    have hc : Int.ceil ((100:ℚ) / 200) = 1 := by
      have h1 : Int.ceil ((100:ℚ) / 200) ≤ 1 := Int.ceil_le.mpr (by norm_num)
      have h2 : 0 < Int.ceil ((100:ℚ) / 200) := Int.ceil_pos.mpr (by norm_num)
      omega
    have hN : Int.toNat (Int.ceil ((100:ℚ) / 200)) = 1 := by rw [hc]; rfl
    rw [hN]
    have hr : List.range 1 = [0] := by decide
    rw [hr, List.foldl_cons, List.foldl_nil, hstep]
  have hmer : mergeShortSegments c1CtrPts [] = [] := by
    rw [mergeShortSegments]
    simp
  have htot : roundTo 2 (lastDistanceM c1CtrPts / 1000) = 1/10 := by
    rw [hL]
    norm_num [roundTo, pyRound]
  rw [analyze_eq c1CtrPts "activity" (by norm_num [c1CtrPts])]
  rw [hdet, hmer]
  refine ⟨_, rfl, ?_, ?_, ?_⟩
  · rfl
  · exact htot
  · show ¬ RoundChain 0 (buildSegments c1CtrPts (splitLongFlatDescentSegments c1CtrPts []))
      (roundTo 2 (lastDistanceM c1CtrPts / 1000))
    rw [htot]
    intro hcon
    have : (0:ℚ) = 1/10 := hcon
    norm_num at this

/-- Claim C1, witness: the amended partition theorem instantiated on a
concrete monotone 10-point track. -/
theorem C1_partition_witness :
    ∃ r, analyze c5WitnessPts "activity" = some r ∧ r.segments ≠ [] ∧
      RoundChain 0 r.segments r.total_distance_km :=
  C1_partition c5WitnessPts "activity" (by norm_num [c5WitnessPts]) rfl
    (by norm_num [c5WitnessPts, List.chain'_cons])
    (by have h : lastDistanceM c5WitnessPts = 1800 := rfl
        rw [h]; norm_num)

/-- **C9** (corrected): during the merge pass a raw segment shorter than
0.3 km is absorbed into the following segment (which keeps its own
terrain type), or — when it is the last one and output exists — into the
preceding output segment by extending its end index; after the merge
pass every segment is at least 0.3 km long or is the only segment; the
split pass never touches climb segments (the climb sublist is unchanged)
and bounds every non-climb segment of its output by 5 km plus the
maximum point spacing.  The original minimum-length guarantee for the
FINAL list is refuted by `C9_short_tail_counterexample`: the split pass
can create a trailing flat/descent block shorter than 0.3 km. -/
theorem C9_merge_split_properties (pts : List Pt)
    (hm : List.Chain' (fun a b : Pt => a.distance_m ≤ b.distance_m) pts)
    (h0 : ptDist pts 0 = 0) :
    (∀ (merged : List RawSeg) (current next : RawSeg) (rest2 : List RawSeg),
      segLengthKm pts current < 3/10 →
      mergeLoop pts merged (current :: next :: rest2) =
        mergeLoop pts merged ({ start_idx := current.start_idx, end_idx := next.end_idx, terrain_type := next.terrain_type } :: rest2)) ∧
    (∀ (m0 : RawSeg) (ms : List RawSeg) (current : RawSeg),
      segLengthKm pts current < 3/10 →
      mergeLoop pts (m0 :: ms) [current] = updateLastEnd (m0 :: ms) current.end_idx) ∧
    (∀ (raw : List RawSeg) (a b : ℕ), IdxChain a raw b → SegBounds pts raw →
      ∀ s ∈ mergeShortSegments pts raw,
        3/10 ≤ segLengthKm pts s ∨ mergeShortSegments pts raw = [s]) ∧
    (∀ segs : List RawSeg,
      (splitLongFlatDescentSegments pts segs).filter
          (fun s => s.terrain_type == TerrainType.climb) =
        segs.filter (fun s => s.terrain_type == TerrainType.climb)) ∧
    (∀ segs : List RawSeg, SegBounds pts segs →
      ∀ s ∈ splitLongFlatDescentSegments pts segs,
        s.terrain_type ≠ TerrainType.climb →
        segLengthKm pts s ≤ 5 + maxGapM pts / 1000) :=
  ⟨fun merged current next rest2 h => mergeLoop_short_cons pts merged current next rest2 h,
   fun m0 ms current h => mergeLoop_short_last pts m0 ms current h,
   fun raw a b hch hb => (mergeShortSegments_spec pts hm raw a b hch hb).2.2,
   split_filter_climb pts,
   split_length_bound pts hm h0⟩

/-- Claim C9, witness: the merge/split properties instantiated on the
concrete 11-point track. -/
theorem C9_merge_split_properties_witness :
    (∀ (merged : List RawSeg) (current next : RawSeg) (rest2 : List RawSeg),
      segLengthKm c9CtrPts current < 3/10 →
      mergeLoop c9CtrPts merged (current :: next :: rest2) =
        mergeLoop c9CtrPts merged ({ start_idx := current.start_idx, end_idx := next.end_idx, terrain_type := next.terrain_type } :: rest2)) ∧
    (∀ (m0 : RawSeg) (ms : List RawSeg) (current : RawSeg),
      segLengthKm c9CtrPts current < 3/10 →
      mergeLoop c9CtrPts (m0 :: ms) [current] = updateLastEnd (m0 :: ms) current.end_idx) ∧
    (∀ (raw : List RawSeg) (a b : ℕ), IdxChain a raw b → SegBounds c9CtrPts raw →
      ∀ s ∈ mergeShortSegments c9CtrPts raw,
        3/10 ≤ segLengthKm c9CtrPts s ∨ mergeShortSegments c9CtrPts raw = [s]) ∧
    (∀ segs : List RawSeg,
      (splitLongFlatDescentSegments c9CtrPts segs).filter
          (fun s => s.terrain_type == TerrainType.climb) =
        segs.filter (fun s => s.terrain_type == TerrainType.climb)) ∧
    (∀ segs : List RawSeg, SegBounds c9CtrPts segs →
      ∀ s ∈ splitLongFlatDescentSegments c9CtrPts segs,
        s.terrain_type ≠ TerrainType.climb →
        segLengthKm c9CtrPts s ≤ 5 + maxGapM c9CtrPts / 1000) :=
  C9_merge_split_properties c9CtrPts
    (by norm_num [c9CtrPts, List.chain'_cons]) rfl

/-- Claim C9, counterexample: on the 5.2-km flat track the merge pass
keeps the single (long) segment, but the split pass then produces a
trailing flat block of only 0.2 km — shorter than the 0.3-km minimum —
in a final list of two segments. -/
theorem C9_short_tail_counterexample :
    mergeShortSegments c9CtrPts [⟨0, 10, TerrainType.flat⟩] = [⟨0, 10, TerrainType.flat⟩] ∧
    splitLongFlatDescentSegments c9CtrPts [⟨0, 10, TerrainType.flat⟩] =
      [⟨0, 8, TerrainType.flat⟩, ⟨8, 10, TerrainType.flat⟩] ∧
    segLengthKm c9CtrPts ⟨8, 10, TerrainType.flat⟩ = 1/5 ∧
    ((1:ℚ)/5) < 3/10 := by
  have hlen52 : segLengthKm c9CtrPts ⟨0, 10, TerrainType.flat⟩ = ((5200:ℚ) - 0) / 1000 := rfl
  have hlong : ¬ segLengthKm c9CtrPts ⟨0, 10, TerrainType.flat⟩ < 3/10 := by
    rw [hlen52]
    norm_num
  have hmerge : mergeShortSegments c9CtrPts [⟨0, 10, TerrainType.flat⟩] =
      [⟨0, 10, TerrainType.flat⟩] := by
    rw [mergeShortSegments, if_neg (by simp), mergeLoop_long c9CtrPts [] _ [] hlong,
      mergeLoop_nil]
    simp
  have hg0 : (c9CtrPts.getD 0 dfltPt).distance_m = 0 := rfl
  have hg10 : (c9CtrPts.getD 10 dfltPt).distance_m = 5200 := rfl
  have hcond : ¬ ((⟨0, 10, TerrainType.flat⟩ : RawSeg).terrain_type = TerrainType.climb ∨
      ((c9CtrPts.getD 10 dfltPt).distance_m - (c9CtrPts.getD 0 dfltPt).distance_m) / 1000 ≤ 5) := by
    rw [hg0, hg10]
    push_neg
    constructor
    · intro hcl
      exact absurd hcl (by decide)
    · norm_num
  have hsplit1 : splitLongFlatDescentSegments c9CtrPts [⟨0, 10, TerrainType.flat⟩] =
      (if (⟨0, 10, TerrainType.flat⟩ : RawSeg).terrain_type = TerrainType.climb ∨
          ((c9CtrPts.getD 10 dfltPt).distance_m - (c9CtrPts.getD 0 dfltPt).distance_m) / 1000 ≤ 5
       then [(⟨0, 10, TerrainType.flat⟩ : RawSeg)]
       else splitBlocks c9CtrPts TerrainType.flat (c9CtrPts.getD 10 dfltPt).distance_m
         (Int.toNat (Int.ceil (((c9CtrPts.getD 10 dfltPt).distance_m -
           (c9CtrPts.getD 0 dfltPt).distance_m) / 5000)) + 1)
         0 (c9CtrPts.getD 0 dfltPt).distance_m) ++ [] := rfl
  have hfuel : Int.toNat (Int.ceil (((c9CtrPts.getD 10 dfltPt).distance_m -
      (c9CtrPts.getD 0 dfltPt).distance_m) / 5000)) + 1 = 3 := by
    rw [hg0, hg10]
    have hc : Int.ceil (((5200:ℚ) - 0) / 5000) = 2 := by
      have h1 : Int.ceil (((5200:ℚ) - 0) / 5000) ≤ 2 := Int.ceil_le.mpr (by norm_num)
      have h2 : 1 < Int.ceil (((5200:ℚ) - 0) / 5000) :=
        Int.lt_ceil.mpr (by norm_num)
      omega
    rw [hc]
    rfl
  have hfindA : findPointAtDistance c9CtrPts (min ((0:ℚ) + 5 * 1000) 5200) = some 8 := by
    norm_num [findPointAtDistance, findIdxFrom, c9CtrPts]
  have e1 : splitBlocks c9CtrPts TerrainType.flat 5200 3 0 0 =
      { start_idx := 0, end_idx := 8, terrain_type := TerrainType.flat } ::
        splitBlocks c9CtrPts TerrainType.flat 5200 2 8 (min ((0:ℚ) + 5 * 1000) 5200) := by
    rw [show (3:ℕ) = 2 + 1 from rfl, splitBlocks, if_pos (by norm_num)]
    simp only [hfindA]
  have hminA : min ((0:ℚ) + 5 * 1000) 5200 = 5000 := by norm_num
  have hfindB : findPointAtDistance c9CtrPts (min ((5000:ℚ) + 5 * 1000) 5200) = some 10 := by
    norm_num [findPointAtDistance, findIdxFrom, c9CtrPts]
  have e2 : splitBlocks c9CtrPts TerrainType.flat 5200 2 8 5000 =
      { start_idx := 8, end_idx := 10, terrain_type := TerrainType.flat } ::
        splitBlocks c9CtrPts TerrainType.flat 5200 1 10 (min ((5000:ℚ) + 5 * 1000) 5200) := by
    rw [show (2:ℕ) = 1 + 1 from rfl, splitBlocks, if_pos (by norm_num)]
    simp only [hfindB]
  have hminB : min ((5000:ℚ) + 5 * 1000) 5200 = 5200 := by norm_num
  have e3 : splitBlocks c9CtrPts TerrainType.flat 5200 1 10 5200 = [] := by
    rw [show (1:ℕ) = 0 + 1 from rfl, splitBlocks, if_neg (by norm_num)]
  have hsplit : splitLongFlatDescentSegments c9CtrPts [⟨0, 10, TerrainType.flat⟩] =
      [⟨0, 8, TerrainType.flat⟩, ⟨8, 10, TerrainType.flat⟩] := by
    rw [hsplit1, if_neg hcond, hfuel, hg0, hg10, e1, hminA, e2, hminB, e3]
    rfl
  have htail : segLengthKm c9CtrPts ⟨8, 10, TerrainType.flat⟩ = ((5200:ℚ) - 5000) / 1000 := rfl
  refine ⟨hmerge, hsplit, ?_, by norm_num⟩
  rw [htail]
  norm_num
